import Mathlib

/-!
Verification development for the triangulation traversal core of the
shine repository: the topology query operations
(`topologyquery.rs`) and the crossing iterator (`crossingiterator.rs`).

The two Rust source files are embedded faithfully below.  Parts of the
repository that those files depend on but whose sources are not
available (the face/vertex graph arena, the edge circulator and the
predicate strategies) are modelled from the specification; every such
definition carries a doc comment starting with `Modelled from the spec:`.
-/

namespace ShineTri

/-- Result of `Predicates::orientation_triangle`. -/
inductive OrientationType where
  | ccw
  | cw
  | collinear
deriving DecidableEq, Repr

/-- Result of `Predicates::test_collinear_points`. -/
inductive CollinearTestType where
  | before
  | first
  | between
  | second
  | after
deriving DecidableEq, Repr

/-- Vertex handle: a plain index into the vertex arena. -/
abbrev VertexIndex := Nat

/-- Face handle: a plain index into the face arena. -/
abbrev FaceIndex := Nat

/-- Rotation index selecting a corner or opposite edge of a face. -/
abbrev Rot3 := Fin 3

/-- Mod-3 increment of a rotation. -/
def Rot3.increment (r : Rot3) : Rot3 := ⟨(r.val + 1) % 3, Nat.mod_lt _ (by decide)⟩

/-- Mod-3 decrement of a rotation. -/
def Rot3.decrement (r : Rot3) : Rot3 := ⟨(r.val + 2) % 3, Nat.mod_lt _ (by decide)⟩

/-- An oriented edge of a face: the face handle plus the rotation of the
opposite corner. -/
structure FaceEdge where
  face : FaceIndex
  edge : Rot3
deriving DecidableEq, Repr

instance : Inhabited FaceEdge := ⟨⟨0, 0⟩⟩

/-- Modelled from the spec: a face of the topology graph owns exactly
three vertex indices and three neighbor face indices, both indexed by
rotation (the graph module is not among the available sources). -/
structure FaceData where
  va : VertexIndex
  vb : VertexIndex
  vc : VertexIndex
  na : FaceIndex
  nb : FaceIndex
  nc : FaceIndex
deriving DecidableEq, Repr

instance : Inhabited FaceData := ⟨⟨0, 0, 0, 0, 0, 0⟩⟩

/-- Vertex of a face at a given rotation. -/
def FaceData.vertex (fd : FaceData) (r : Rot3) : VertexIndex :=
  if r.val = 0 then fd.va else if r.val = 1 then fd.vb else fd.vc

/-- Neighbor face across the edge opposite a given corner. -/
def FaceData.neighbor (fd : FaceData) (r : Rot3) : FaceIndex :=
  if r.val = 0 then fd.na else if r.val = 1 then fd.nb else fd.nc

/-- A 2D position with exact integer coordinates. -/
abbrev Pos := Int × Int

/-- Modelled from the spec: the triangulation owns the vertex and face
arenas, the sentinel infinite vertex, the per-vertex starting-face
back-reference, and the injected predicate strategy. -/
structure Triangulation where
  faceList : List FaceData
  vertexCount : Nat
  infiniteVertex : VertexIndex
  dimension : Nat
  pos : VertexIndex → Pos
  vertexFace : VertexIndex → FaceIndex
  orientFn : Pos → Pos → Pos → OrientationType
  collinearFn : Pos → Pos → Pos → CollinearTestType

/-- Face lookup in the arena (out-of-range handles yield a default face,
which a structurally valid triangulation never dereferences). -/
def Triangulation.face (t : Triangulation) (f : FaceIndex) : FaceData :=
  t.faceList.getD f default

/-- A flexible way to name a vertex, as in `query/vertexclue`. -/
inductive VertexClue where
  | vertexIndex (v : VertexIndex)
  | faceVertex (f : FaceIndex) (r : Rot3)
  | edgeStart (f : FaceIndex) (r : Rot3)
  | edgeEnd (f : FaceIndex) (r : Rot3)
deriving DecidableEq, Repr

/-- `TopologyQuery::vi`: resolve a vertex clue to a vertex index. -/
def Triangulation.vi (t : Triangulation) : VertexClue → VertexIndex
  | .vertexIndex v => v
  | .faceVertex f r => (t.face f).vertex r
  | .edgeStart f r => (t.face f).vertex r.increment
  | .edgeEnd f r => (t.face f).vertex r.decrement

/-- Modelled from the spec: the graph's neighbor-index lookup, returning
the first rotation at which a face lists a given neighbor face. -/
def getNeighborIndex (fd : FaceData) (f : FaceIndex) : Option Rot3 :=
  if fd.na = f then some 0 else if fd.nb = f then some 1
  else if fd.nc = f then some 2 else none

/-- `TopologyQuery::opposite_edge`: the twin representation of an edge.
The Rust code unwraps the neighbor-index lookup and panics when the
neighbor face does not list the origin face; that failure is modelled as
`none`. -/
def Triangulation.oppositeEdge (t : Triangulation) (e : FaceEdge) : Option FaceEdge :=
  let nf := (t.face e.face).neighbor e.edge
  (getNeighborIndex (t.face nf) e.face).map (fun i => ⟨nf, i⟩)

/-- Modelled from the spec: the edge circulator's clockwise pivot around
the base vertex, following the neighbor-of-twin relation.  The current
edge always starts at the base vertex; crossing it and rotating once
lands on the next face clockwise.  On a broken twin link the circulator
is left in place. -/
def Triangulation.advanceCw (t : Triangulation) (e : FaceEdge) : FaceEdge :=
  match t.oppositeEdge e with
  | some o => ⟨o.face, o.edge.increment⟩
  | none => e

/-- Modelled from the spec: the edge circulator's counterclockwise pivot
around the base vertex, crossing the other edge of the current face that
touches the base vertex. -/
def Triangulation.advanceCcw (t : Triangulation) (e : FaceEdge) : FaceEdge :=
  match t.oppositeEdge ⟨e.face, e.edge.decrement⟩ with
  | some o => o
  | none => e

/-- Modelled from the spec: constructing an edge circulator at a base
vertex picks the vertex's back-referenced face and the edge of that face
which starts at the base vertex. -/
def circulatorInit (t : Triangulation) (a : VertexIndex) : FaceEdge :=
  let f := t.vertexFace a
  let fd := t.face f
  let i : Rot3 := if fd.va = a then 0 else if fd.vb = a then 1 else 2
  ⟨f, i.decrement⟩

/-- Modelled from the spec: `EdgeCirculator::next_ccw` advances the
circulator counterclockwise and returns the new current edge. -/
def Triangulation.nextCcw (t : Triangulation) (e : FaceEdge) : FaceEdge :=
  t.advanceCcw e

/-- Fuel bound used for the circulation loop of `find_edge_by_vertex`:
more than the number of oriented edges of the mesh. -/
def findFuel (t : Triangulation) : Nat := 3 * t.faceList.length + 3

/-- The loop of `TopologyQuery::find_edge_by_vertex`, with explicit fuel:
test the current edge's end vertex, stop with `none` when the circulation
returns to the starting edge. -/
def findLoopAux (t : Triangulation) (b : VertexIndex) (start : FaceEdge) :
    Nat → FaceEdge → Option FaceEdge
  | 0, _ => none
  | fuel + 1, e =>
    if t.vi (.edgeEnd e.face e.edge) = b then some e
    else
      let e' := t.nextCcw e
      if e' = start then none else findLoopAux t b start fuel e'

/-- `TopologyQuery::find_edge_by_vertex`: circulate the edges around `a`
looking for one whose end vertex is `b`. -/
def findEdgeByVertex (t : Triangulation) (a b : VertexIndex) : Option FaceEdge :=
  let start := t.nextCcw (circulatorInit t a)
  findLoopAux t b start (findFuel t) start

/-- The list of edges the `find_edge_by_vertex` loop examines: the
current edge, then the successive counterclockwise edges until the
starting edge reappears (or fuel runs out). -/
def visitedList (t : Triangulation) (start : FaceEdge) :
    Nat → FaceEdge → List FaceEdge
  | 0, _ => []
  | fuel + 1, e =>
    e :: (let e' := t.nextCcw e;
          if e' = start then [] else visitedList t start fuel e')

/-- The crossing events of `CrossingIterator`. -/
inductive Crossing where
  | start (face : FaceIndex) (vertex : Rot3)
  | end_ (face : FaceIndex) (vertex : Rot3)
  | coincidentEdge (face : FaceIndex) (edge : Rot3)
  | positiveEdge (face : FaceIndex) (edge : Rot3)
  | negativeEdge (face : FaceIndex) (edge : Rot3)
deriving DecidableEq, Repr

/-- Error kinds: caller-contract violations, structural corruption
(the Rust panics), and fuel exhaustion (modelling nontermination). -/
inductive Err where
  | caller
  | corrupt
  | fuelOut
deriving DecidableEq, Repr

instance (ε α : Type) [DecidableEq ε] [DecidableEq α] :
    DecidableEq (Except ε α) := fun a b =>
  match a, b with
  | .error e1, .error e2 => decidable_of_iff (e1 = e2) (by simp)
  | .error _, .ok _ => isFalse (by simp)
  | .ok _, .error _ => isFalse (by simp)
  | .ok a1, .ok a2 => decidable_of_iff (a1 = a2) (by simp)

/-- Classification of one examined far vertex inside
`CrossingIterator::search_vertex` (the body of the circulation loop,
after the skip and the direct `v1` test). -/
inductive VKind where
  | orientC (o : OrientationType)
  | emitC
  | corruptC
deriving DecidableEq, Repr

/-- The orientation computation of `search_vertex` for one far vertex:
the `start_vertex` shortcut, then the orientation predicate, and for
collinear results the collinear-position classifier with its three
panic branches. -/
def classify (t : Triangulation) (v0 v1 startV w : VertexIndex) : VKind :=
  if w = startV then .orientC .ccw
  else
    let p0 := t.pos v0
    let p1 := t.pos v1
    let pw := t.pos w
    match t.orientFn p0 p1 pw with
    | .ccw => .orientC .ccw
    | .cw => .orientC .cw
    | .collinear =>
      match t.collinearFn p0 p1 pw with
      | .before => .orientC .ccw
      | .first => .corruptC
      | .between => .emitC
      | .second => .corruptC
      | .after => .corruptC

/-- Outcome of one iteration of the `search_vertex` circulation loop:
either keep circulating from a new edge, or stop with a result. -/
inductive LoopStep where
  | continueS (nxt : FaceEdge) (so2 : Option OrientationType)
  | stopS (res : Except Err (Option Crossing))
deriving DecidableEq, Repr

/-- One iteration of the `search_vertex` circulation loop: skip edges to
the infinite vertex or back to `v0` (always stepping clockwise), emit a
`CoincidentEdge` when the far vertex is `v1`, otherwise classify the far
vertex and either keep circulating in the direction fixed by the first
orientation or stop with a `Start` at the orientation flip. -/
def searchVertexBody (t : Triangulation) (v0 v1 startV : VertexIndex)
    (cur : FaceEdge) (so : Option OrientationType) : LoopStep :=
  let w := t.vi (.edgeEnd cur.face cur.edge)
  if w = t.infiniteVertex ∨ w = v0 then .continueS (t.advanceCw cur) so
  else if w = v1 then .stopS (.ok (some (.coincidentEdge cur.face cur.edge)))
  else
    match classify t v0 v1 startV w with
    | .corruptC => .stopS (.error .corrupt)
    | .emitC => .stopS (.ok (some (.coincidentEdge cur.face cur.edge)))
    | .orientC o =>
      if so.getD o = o then
        .continueS
          (if so.getD o = OrientationType.ccw then t.advanceCw cur
           else t.advanceCcw cur)
          (some (so.getD o))
      else
        .stopS (.ok (some (.start
          (if o = OrientationType.ccw then t.advanceCw cur else cur).face
          (if o = OrientationType.ccw then t.advanceCw cur else cur).edge.increment)))

/-- The circulation loop of `CrossingIterator::search_vertex`, with
explicit fuel.  State: the circulator's current edge and the remembered
start orientation. -/
def searchVertexLoop (t : Triangulation) (v0 v1 startV : VertexIndex) :
    Nat → FaceEdge → Option OrientationType → Except Err (Option Crossing)
  | 0, _, _ => .error .fuelOut
  | fuel + 1, cur, so =>
    match searchVertexBody t v0 v1 startV cur so with
    | .continueS nxt so2 => searchVertexLoop t v0 v1 startV fuel nxt so2
    | .stopS r => r

/-- `CrossingIterator::search_vertex`: returns `none` when the base
vertex already is `v1`, otherwise circulates around the base vertex. -/
def searchVertex (t : Triangulation) (v0 v1 base startV : VertexIndex)
    (sf : Nat) : Except Err (Option Crossing) :=
  let circ0 := circulatorInit t base
  if base = v1 then .ok none
  else searchVertexLoop t v0 v1 startV sf circ0 none

/-- `CrossingIterator::search_edge`: cross into the neighbor face and
classify its far vertex against the line through `v0` and `v1`. -/
def searchEdge (t : Triangulation) (v0 v1 : VertexIndex)
    (startFace : FaceIndex) (startEdge : Rot3) : Except Err Crossing :=
  let face := (t.face startFace).neighbor startEdge
  match getNeighborIndex (t.face face) startFace with
  | none => .error .corrupt
  | some vidx =>
    let w := (t.face face).vertex vidx
    if w = v1 then .ok (.end_ face vidx)
    else
      match t.orientFn (t.pos v0) (t.pos v1) (t.pos w) with
      | .collinear => .ok (.end_ face vidx)
      | .ccw => .ok (.negativeEdge face vidx.increment)
      | .cw => .ok (.positiveEdge face vidx.decrement)

/-- `CrossingIterator::advance`'s dispatch: given the current crossing,
compute the next one (the transition table of the iterator). -/
def stepCrossing (t : Triangulation) (v0 v1 : VertexIndex) (sf : Nat) :
    Crossing → Except Err (Option Crossing)
  | .start f v => (searchEdge t v0 v1 f v).map some
  | .end_ f v => searchVertex t v0 v1 (t.vi (.faceVertex f v)) v0 sf
  | .coincidentEdge f e =>
    searchVertex t v0 v1 (t.vi (.edgeEnd f e)) (t.vi (.edgeStart f e)) sf
  | .positiveEdge f e => (searchEdge t v0 v1 f e).map some
  | .negativeEdge f e => (searchEdge t v0 v1 f e).map some

/-- How a run of the iterator ended: exhausted normally, or halted by an
error (a Rust panic or fuel exhaustion). -/
inductive Outcome where
  | done
  | halted (e : Err)
deriving DecidableEq, Repr

/-- Pull events out of the iterator: emit the buffered current crossing,
compute its successor, and repeat.  An error while computing the
successor halts the run without emitting the buffered event, matching
the Rust panic inside `next()`. -/
def runAux (t : Triangulation) (v0 v1 : VertexIndex) (sf : Nat) :
    Nat → Option Crossing → List Crossing × Outcome
  | _, none => ([], .done)
  | 0, some _ => ([], .halted .fuelOut)
  | n + 1, some c =>
    match stepCrossing t v0 v1 sf c with
    | .error e => ([], .halted e)
    | .ok nxt =>
      let p := runAux t v0 v1 sf n nxt
      (c :: p.1, p.2)

/-- `CrossingIterator::new`: the construction asserts (in order) that
the triangulation is 2-dimensional, that the endpoints differ and that
both are finite, and only then seeds the state with the first
vertex-search. -/
def newCrossingIterator (t : Triangulation) (v0 v1 : VertexIndex)
    (sf : Nat) : Except Err (Option Crossing) :=
  if t.dimension ≠ 2 then .error .caller
  else if v0 = v1 then .error .caller
  else if v0 = t.infiniteVertex then .error .caller
  else if v1 = t.infiniteVertex then .error .caller
  else searchVertex t v0 v1 v0 v0 sf

/-- The full event sequence of a crossing iterator together with the way
the run ended. -/
def crossingSeq (t : Triangulation) (v0 v1 : VertexIndex) (sf n : Nat) :
    List Crossing × Outcome :=
  match newCrossingIterator t v0 v1 sf with
  | .error e => ([], .halted e)
  | .ok cur => runAux t v0 v1 sf n cur

/-- Crossings produced by vertex-searches. -/
def isVShape : Crossing → Bool
  | .start _ _ => true
  | .coincidentEdge _ _ => true
  | _ => false

/-- Crossings produced by edge-searches. -/
def isEShape : Crossing → Bool
  | .end_ _ _ => true
  | .positiveEdge _ _ => true
  | .negativeEdge _ _ => true
  | _ => false

/-- Which event may follow which in a completed run: after a `Start` or
a signed edge the next event comes from an edge-search; after an `End`
or a `CoincidentEdge` whose vertex is not `v1`, from a vertex-search. -/
def allowedNext (t : Triangulation) (v1 : VertexIndex) :
    Crossing → Crossing → Bool
  | .start _ _, c' => isEShape c'
  | .positiveEdge _ _, c' => isEShape c'
  | .negativeEdge _ _, c' => isEShape c'
  | .end_ f v, c' => decide (t.vi (.faceVertex f v) ≠ v1) && isVShape c'
  | .coincidentEdge f e, c' => decide (t.vi (.edgeEnd f e) ≠ v1) && isVShape c'

/-- Which event may end a completed run: an `End` at a corner bearing
`v1`, or a `CoincidentEdge` whose end vertex is `v1`. -/
def lastOkB (t : Triangulation) (v1 : VertexIndex) : Crossing → Bool
  | .end_ f v => decide (t.vi (.faceVertex f v) = v1)
  | .coincidentEdge f e => decide (t.vi (.edgeEnd f e) = v1)
  | _ => false

/-- Structure of the tail of a completed run after a given event. -/
def seqOkAux (t : Triangulation) (v1 : VertexIndex) :
    Crossing → List Crossing → Bool
  | c, [] => lastOkB t v1 c
  | c, c' :: l => allowedNext t v1 c c' && seqOkAux t v1 c' l

/-- Structure of a completed run: it opens with a vertex-search event
and then respects the transition table until a `v1`-reaching event. -/
def seqOk (t : Triangulation) (v1 : VertexIndex) : List Crossing → Bool
  | [] => true
  | c :: l => isVShape c && seqOkAux t v1 c l

/-- Number of `Start` events in a run. -/
def countStart (l : List Crossing) : Nat :=
  (l.filter fun c => match c with | .start _ _ => true | _ => false).length

/-- Number of `End` events in a run. -/
def countEnd (l : List Crossing) : Nat :=
  (l.filter fun c => match c with | .end_ _ _ => true | _ => false).length

/-- Number of unmatched `Start` events still pending after an event:
one while the run is inside a `Start` … `End` group. -/
def opens : Crossing → Nat
  | .start _ _ => 1
  | .positiveEdge _ _ => 1
  | .negativeEdge _ _ => 1
  | _ => 0

/-- Cross product of two integer vectors. -/
def cross2 (p q : Pos) : Int := p.1 * q.2 - p.2 * q.1

/-- Dot product of two integer vectors. -/
def dot2 (p q : Pos) : Int := p.1 * q.1 + p.2 * q.2

/-- Coordinatewise difference of positions. -/
def psub (p q : Pos) : Pos := (p.1 - q.1, p.2 - q.2)

/-- Modelled from the spec: the exact orientation predicate on integer
coordinates (sign of the cross product). -/
def exactOrient (p0 p1 p2 : Pos) : OrientationType :=
  let d := cross2 (psub p1 p0) (psub p2 p0)
  if 0 < d then .ccw else if d < 0 then .cw else .collinear

/-- Modelled from the spec: the exact collinear-position classifier on
integer coordinates, comparing the projection of the third point onto
the segment. -/
def exactCollinearTest (p0 p1 p2 : Pos) : CollinearTestType :=
  let tv := dot2 (psub p2 p0) (psub p1 p0)
  let lv := dot2 (psub p1 p0) (psub p1 p0)
  if tv < 0 then .before
  else if tv = 0 then .first
  else if tv < lv then .between
  else if tv = lv then .second
  else .after

/-- `p` lies strictly inside the open segment from `a` to `b`. -/
def strictBetween (a b p : Pos) : Prop :=
  cross2 (psub b a) (psub p a) = 0 ∧
  0 < dot2 (psub p a) (psub b a) ∧ 0 < dot2 (psub p b) (psub a b)

instance (a b p : Pos) : Decidable (strictBetween a b p) := by
  unfold strictBetween; infer_instance

/-- Distinct finite vertices of the triangulation have distinct
positions. -/
def PosInjective (t : Triangulation) : Prop :=
  ∀ u ∈ List.range t.vertexCount, ∀ v ∈ List.range t.vertexCount,
    u ≠ t.infiniteVertex → v ≠ t.infiniteVertex → t.pos u = t.pos v → u = v

/-- No finite vertex lies strictly inside a finite edge of the mesh. -/
def NoVertexInsideEdge (t : Triangulation) : Prop :=
  ∀ f ∈ List.range t.faceList.length, ∀ r : Rot3,
    ∀ u ∈ List.range t.vertexCount,
    u ≠ t.infiniteVertex →
    t.vi (.edgeStart f r) ≠ t.infiniteVertex →
    t.vi (.edgeEnd f r) ≠ t.infiniteVertex →
    u ≠ t.vi (.edgeStart f r) → u ≠ t.vi (.edgeEnd f r) →
    ¬ strictBetween (t.pos (t.vi (.edgeStart f r)))
      (t.pos (t.vi (.edgeEnd f r))) (t.pos u)

/-- The twin invariant exactly as the specification states it: every
neighbor of every face lists that face among its own neighbors. -/
def TwinListed (t : Triangulation) : Prop :=
  ∀ f ∈ List.range t.faceList.length, ∀ r : Rot3,
    ∃ s : Rot3, (t.face ((t.face f).neighbor r)).neighbor s = f

instance (t : Triangulation) : Decidable (PosInjective t) := by
  unfold PosInjective; infer_instance

instance (t : Triangulation) : Decidable (NoVertexInsideEdge t) := by
  unfold NoVertexInsideEdge; infer_instance

instance (t : Triangulation) : Decidable (TwinListed t) := by
  unfold TwinListed; infer_instance

/-- Position table lookup helper for the concrete meshes. -/
def posOf (l : List Pos) : VertexIndex → Pos := fun v => l.getD v (9, 9)

/-- Back-reference table lookup helper for the concrete meshes. -/
def vfOf (l : List FaceIndex) : VertexIndex → FaceIndex := fun v => l.getD v 0

/-- A triangle `v0 w c` and a triangle `w v1 c` with `w` exactly on the
segment from `v0` to `v1`: the collinear-passthrough mesh (vertices
`v0 = 0`, `w = 1`, `v1 = 2`, `c = 3`, infinite `= 4`). -/
def ceCollinear : Triangulation :=
  { faceList :=
      [ ⟨0, 1, 3, 1, 5, 2⟩
      , ⟨1, 2, 3, 4, 0, 3⟩
      , ⟨4, 1, 0, 0, 5, 3⟩
      , ⟨4, 2, 1, 1, 2, 4⟩
      , ⟨4, 3, 2, 1, 3, 5⟩
      , ⟨4, 0, 3, 0, 4, 2⟩ ]
  , vertexCount := 5
  , infiniteVertex := 4
  , dimension := 2
  , pos := posOf [(0, 0), (1, 0), (2, 0), (1, 2), (9, 9)]
  , vertexFace := vfOf [0, 1, 1, 0, 2]
  , orientFn := exactOrient
  , collinearFn := exactCollinearTest }

/-- A quadrilateral `v0 b v1 a` with interior vertex `w` exactly on the
segment from `v0` to `v1`, reached through the interior of the triangle
`a b w`: the intermediate-`End` mesh (vertices `v0 = 0`, `a = 1`,
`b = 2`, `w = 3`, `v1 = 4`, infinite `= 5`). -/
def ceMidEnd : Triangulation :=
  { faceList :=
      [ ⟨0, 2, 1, 1, 7, 4⟩
      , ⟨1, 2, 3, 3, 2, 0⟩
      , ⟨1, 3, 4, 3, 6, 1⟩
      , ⟨2, 4, 3, 2, 1, 5⟩
      , ⟨5, 2, 0, 0, 7, 5⟩
      , ⟨5, 4, 2, 3, 4, 6⟩
      , ⟨5, 1, 4, 2, 5, 7⟩
      , ⟨5, 0, 1, 0, 6, 4⟩ ]
  , vertexCount := 6
  , infiniteVertex := 5
  , dimension := 2
  , pos := posOf [(0, 0), (1, 1), (1, -1), (2, 0), (4, 0), (9, 9)]
  , vertexFace := vfOf [0, 1, 1, 2, 2, 4]
  , orientFn := exactOrient
  , collinearFn := exactCollinearTest }

/-- A combinatorial wheel around `v0` with rim `v1 b a` and the infinite
vertex, with positions chosen inconsistently with the stored rotation
order (vertices `v0 = 0`, `v1 = 1`, `a = 2`, `b = 3`, infinite `= 4`):
every twin link is mutual, yet the circulation around `v0` meets an
orientation flip before the edge to `v1`. -/
def ceWheel : Triangulation :=
  { faceList :=
      [ ⟨0, 1, 3, 4, 1, 3⟩
      , ⟨0, 3, 2, 4, 2, 0⟩
      , ⟨0, 2, 4, 5, 3, 1⟩
      , ⟨0, 4, 1, 5, 0, 2⟩
      , ⟨1, 2, 3, 1, 0, 5⟩
      , ⟨1, 4, 2, 2, 4, 3⟩ ]
  , vertexCount := 5
  , infiniteVertex := 4
  , dimension := 2
  , pos := posOf [(0, 0), (10, 0), (1, 1), (1, -1), (9, 9)]
  , vertexFace := vfOf [2, 0, 1, 0, 2]
  , orientFn := exactOrient
  , collinearFn := exactCollinearTest }

/-- The combinatorial tetrahedron: one finite triangle `v0 v1 u` closed
by the infinite vertex (vertices `v0 = 0`, `v1 = 1`, `u = 2`,
infinite `= 3`). -/
def ceTetra : Triangulation :=
  { faceList :=
      [ ⟨0, 1, 2, 3, 1, 2⟩
      , ⟨0, 2, 3, 3, 2, 0⟩
      , ⟨0, 3, 1, 3, 0, 1⟩
      , ⟨1, 3, 2, 1, 0, 2⟩ ]
  , vertexCount := 4
  , infiniteVertex := 3
  , dimension := 2
  , pos := posOf [(0, 0), (2, 0), (1, 1), (9, 9)]
  , vertexFace := vfOf [0, 0, 0, 1]
  , orientFn := exactOrient
  , collinearFn := exactCollinearTest }

/-- Two faces each listing the other as the neighbor at every rotation:
the twin invariant in the specification's literal form holds, yet the
neighbor-index lookup cannot tell the three slots apart. -/
def ceDouble : Triangulation :=
  { faceList := [⟨0, 1, 2, 1, 1, 1⟩, ⟨0, 1, 2, 0, 0, 0⟩]
  , vertexCount := 3
  , infiniteVertex := 3
  , dimension := 2
  , pos := posOf [(0, 0), (1, 0), (0, 1)]
  , vertexFace := vfOf [0, 0, 0]
  , orientFn := exactOrient
  , collinearFn := exactCollinearTest }

/-- The combinatorial tetrahedron again, but with the third vertex
placed on the clockwise side of line(v0,v1) while the stored rotation
order puts it counterclockwise, and the circulation around `v0` started
at the edge towards it: every structural invariant holds (mutual twins,
injective finite positions, no vertex inside an edge, closed circulator
orbit), yet the vertex-search enters CW mode and then ping-pongs
forever between the edge to that vertex and the edge to the infinite
vertex, because the skip branch always advances clockwise (vertices
`v0 = 0`, `v1 = 1`, `u = 2`, infinite `= 3`). -/
def ceBounce : Triangulation :=
  { faceList :=
      [ ⟨0, 1, 2, 3, 1, 2⟩
      , ⟨0, 2, 3, 3, 2, 0⟩
      , ⟨0, 3, 1, 3, 0, 1⟩
      , ⟨1, 3, 2, 1, 0, 2⟩ ]
  , vertexCount := 4
  , infiniteVertex := 3
  , dimension := 2
  , pos := posOf [(0, 0), (2, 0), (1, -1), (9, 9)]
  , vertexFace := vfOf [1, 0, 0, 1]
  , orientFn := exactOrient
  , collinearFn := exactCollinearTest }

theorem searchVertexBody_skip (t : Triangulation) (v0 v1 sv : VertexIndex)
    (cur : FaceEdge) (so : Option OrientationType)
    (h1 : t.vi (.edgeEnd cur.face cur.edge) = t.infiniteVertex ∨
      t.vi (.edgeEnd cur.face cur.edge) = v0) :
    searchVertexBody t v0 v1 sv cur so = .continueS (t.advanceCw cur) so := by
  unfold searchVertexBody
  rw [if_pos h1]

theorem searchVertexBody_v1 (t : Triangulation) (v0 v1 sv : VertexIndex)
    (cur : FaceEdge) (so : Option OrientationType)
    (h1 : ¬(t.vi (.edgeEnd cur.face cur.edge) = t.infiniteVertex ∨
      t.vi (.edgeEnd cur.face cur.edge) = v0))
    (h2 : t.vi (.edgeEnd cur.face cur.edge) = v1) :
    searchVertexBody t v0 v1 sv cur so =
      .stopS (.ok (some (.coincidentEdge cur.face cur.edge))) := by
  unfold searchVertexBody
  rw [if_neg h1, if_pos h2]

theorem searchVertexBody_corrupt (t : Triangulation) (v0 v1 sv : VertexIndex)
    (cur : FaceEdge) (so : Option OrientationType)
    (h1 : ¬(t.vi (.edgeEnd cur.face cur.edge) = t.infiniteVertex ∨
      t.vi (.edgeEnd cur.face cur.edge) = v0))
    (h2 : ¬t.vi (.edgeEnd cur.face cur.edge) = v1)
    (hcl : classify t v0 v1 sv (t.vi (.edgeEnd cur.face cur.edge)) = .corruptC) :
    searchVertexBody t v0 v1 sv cur so = .stopS (.error .corrupt) := by
  unfold searchVertexBody
  rw [if_neg h1, if_neg h2, hcl]

theorem searchVertexBody_emit (t : Triangulation) (v0 v1 sv : VertexIndex)
    (cur : FaceEdge) (so : Option OrientationType)
    (h1 : ¬(t.vi (.edgeEnd cur.face cur.edge) = t.infiniteVertex ∨
      t.vi (.edgeEnd cur.face cur.edge) = v0))
    (h2 : ¬t.vi (.edgeEnd cur.face cur.edge) = v1)
    (hcl : classify t v0 v1 sv (t.vi (.edgeEnd cur.face cur.edge)) = .emitC) :
    searchVertexBody t v0 v1 sv cur so =
      .stopS (.ok (some (.coincidentEdge cur.face cur.edge))) := by
  unfold searchVertexBody
  rw [if_neg h1, if_neg h2, hcl]

theorem searchVertexBody_orient (t : Triangulation) (v0 v1 sv : VertexIndex)
    (cur : FaceEdge) (so : Option OrientationType) (o : OrientationType)
    (h1 : ¬(t.vi (.edgeEnd cur.face cur.edge) = t.infiniteVertex ∨
      t.vi (.edgeEnd cur.face cur.edge) = v0))
    (h2 : ¬t.vi (.edgeEnd cur.face cur.edge) = v1)
    (hcl : classify t v0 v1 sv (t.vi (.edgeEnd cur.face cur.edge)) = .orientC o) :
    searchVertexBody t v0 v1 sv cur so =
      if so.getD o = o then
        .continueS
          (if so.getD o = OrientationType.ccw then t.advanceCw cur
           else t.advanceCcw cur)
          (some (so.getD o))
      else
        .stopS (.ok (some (.start
          (if o = OrientationType.ccw then t.advanceCw cur else cur).face
          (if o = OrientationType.ccw then t.advanceCw cur else cur).edge.increment))) := by
  unfold searchVertexBody
  rw [if_neg h1, if_neg h2, hcl]

theorem searchVertexBody_cases (t : Triangulation) (v0 v1 sv : VertexIndex)
    (cur : FaceEdge) (so : Option OrientationType) :
    (∃ nxt so2, searchVertexBody t v0 v1 sv cur so = .continueS nxt so2) ∨
    searchVertexBody t v0 v1 sv cur so = .stopS (.error .corrupt) ∨
    (∃ f e, searchVertexBody t v0 v1 sv cur so =
      .stopS (.ok (some (.coincidentEdge f e)))) ∨
    (∃ f e, searchVertexBody t v0 v1 sv cur so =
      .stopS (.ok (some (.start f e)))) := by
  by_cases h1 : t.vi (.edgeEnd cur.face cur.edge) = t.infiniteVertex ∨
    t.vi (.edgeEnd cur.face cur.edge) = v0
  · exact Or.inl ⟨_, _, searchVertexBody_skip t v0 v1 sv cur so h1⟩
  · by_cases h2 : t.vi (.edgeEnd cur.face cur.edge) = v1
    · exact Or.inr (Or.inr (Or.inl ⟨_, _, searchVertexBody_v1 t v0 v1 sv cur so h1 h2⟩))
    · cases hcl : classify t v0 v1 sv (t.vi (.edgeEnd cur.face cur.edge)) with
      | corruptC =>
        exact Or.inr (Or.inl (searchVertexBody_corrupt t v0 v1 sv cur so h1 h2 hcl))
      | emitC =>
        exact Or.inr (Or.inr (Or.inl
          ⟨_, _, searchVertexBody_emit t v0 v1 sv cur so h1 h2 hcl⟩))
      | orientC o =>
        have hb := searchVertexBody_orient t v0 v1 sv cur so o h1 h2 hcl
        by_cases h3 : so.getD o = o
        · rw [if_pos h3] at hb; exact Or.inl ⟨_, _, hb⟩
        · rw [if_neg h3] at hb; exact Or.inr (Or.inr (Or.inr ⟨_, _, hb⟩))

theorem searchVertexLoop_succ_continue (t : Triangulation) (v0 v1 sv : VertexIndex)
    (fuel : Nat) (cur nxt : FaceEdge) (so so2 : Option OrientationType)
    (hb : searchVertexBody t v0 v1 sv cur so = .continueS nxt so2) :
    searchVertexLoop t v0 v1 sv (fuel + 1) cur so =
      searchVertexLoop t v0 v1 sv fuel nxt so2 := by
  simp only [searchVertexLoop]
  rw [hb]

theorem searchVertexLoop_succ_stop (t : Triangulation) (v0 v1 sv : VertexIndex)
    (fuel : Nat) (cur : FaceEdge) (so : Option OrientationType)
    (r0 : Except Err (Option Crossing))
    (hb : searchVertexBody t v0 v1 sv cur so = .stopS r0) :
    searchVertexLoop t v0 v1 sv (fuel + 1) cur so = r0 := by
  simp only [searchVertexLoop]
  rw [hb]

theorem searchVertexLoop_ok_shape (t : Triangulation) (v0 v1 sv : VertexIndex) :
    ∀ (fuel : Nat) (cur : FaceEdge) (so : Option OrientationType)
      (r : Option Crossing),
    searchVertexLoop t v0 v1 sv fuel cur so = .ok r →
    ∃ c, r = some c ∧ isVShape c = true := by
  intro fuel
  induction fuel with
  | zero => intro cur so r h; simp [searchVertexLoop] at h
  | succ n ih =>
    intro cur so r h
    rcases searchVertexBody_cases t v0 v1 sv cur so with
      ⟨nxt, so2, hb⟩ | hb | ⟨f, e, hb⟩ | ⟨f, e, hb⟩
    · rw [searchVertexLoop_succ_continue t v0 v1 sv n cur nxt so so2 hb] at h
      exact ih _ _ _ h
    · rw [searchVertexLoop_succ_stop t v0 v1 sv n cur so _ hb] at h
      exact absurd h (by simp)
    · rw [searchVertexLoop_succ_stop t v0 v1 sv n cur so _ hb] at h
      injection h with h2; subst h2; exact ⟨_, rfl, rfl⟩
    · rw [searchVertexLoop_succ_stop t v0 v1 sv n cur so _ hb] at h
      injection h with h2; subst h2; exact ⟨_, rfl, rfl⟩

theorem searchVertexLoop_no_caller (t : Triangulation) (v0 v1 sv : VertexIndex) :
    ∀ (fuel : Nat) (cur : FaceEdge) (so : Option OrientationType),
    searchVertexLoop t v0 v1 sv fuel cur so ≠ .error .caller := by
  intro fuel
  induction fuel with
  | zero => intro cur so h; simp [searchVertexLoop] at h
  | succ n ih =>
    intro cur so h
    rcases searchVertexBody_cases t v0 v1 sv cur so with
      ⟨nxt, so2, hb⟩ | hb | ⟨f, e, hb⟩ | ⟨f, e, hb⟩ <;>
      [rw [searchVertexLoop_succ_continue t v0 v1 sv n cur nxt so so2 hb] at h;
       rw [searchVertexLoop_succ_stop t v0 v1 sv n cur so _ hb] at h;
       rw [searchVertexLoop_succ_stop t v0 v1 sv n cur so _ hb] at h;
       rw [searchVertexLoop_succ_stop t v0 v1 sv n cur so _ hb] at h]
    · exact ih _ _ h
    · exact absurd h (by simp)
    · exact absurd h (by simp)
    · exact absurd h (by simp)

theorem searchVertex_ok_none_iff (t : Triangulation) (v0 v1 base sv : VertexIndex)
    (sf : Nat) (r : Option Crossing)
    (h : searchVertex t v0 v1 base sv sf = .ok r) : r = none ↔ base = v1 := by
  unfold searchVertex at h
  split at h
  · injection h with h2; simp [← h2]; assumption
  · obtain ⟨c, rfl, -⟩ := searchVertexLoop_ok_shape t v0 v1 sv sf _ none r h
    simp; assumption

theorem searchVertex_ok_shape (t : Triangulation) (v0 v1 base sv : VertexIndex)
    (sf : Nat) (c : Crossing)
    (h : searchVertex t v0 v1 base sv sf = .ok (some c)) : isVShape c = true := by
  unfold searchVertex at h
  split at h
  · simp at h
  · obtain ⟨c2, hc2, hs⟩ := searchVertexLoop_ok_shape t v0 v1 sv sf _ none _ h
    injection hc2 with hc2; exact hc2 ▸ hs

theorem searchVertex_no_caller (t : Triangulation) (v0 v1 base sv : VertexIndex)
    (sf : Nat) : searchVertex t v0 v1 base sv sf ≠ .error .caller := by
  unfold searchVertex
  split
  · simp
  · exact searchVertexLoop_no_caller t v0 v1 sv sf _ none

theorem searchEdge_shape (t : Triangulation) (v0 v1 : VertexIndex)
    (f : FaceIndex) (e : Rot3) (c : Crossing)
    (h : searchEdge t v0 v1 f e = .ok c) : isEShape c = true := by
  simp only [searchEdge] at h
  cases hgn : getNeighborIndex (t.face ((t.face f).neighbor e)) f with
  | none => rw [hgn] at h; simp at h
  | some vidx =>
    rw [hgn] at h
    simp only at h
    split at h
    · injection h with h2; subst h2; rfl
    · split at h <;> (injection h with h2; subst h2; rfl)

theorem runAux_some_structure (t : Triangulation) (v0 v1 : VertexIndex) (sf : Nat) :
    ∀ (n : Nat) (c : Crossing) (l : List Crossing),
    runAux t v0 v1 sf n (some c) = (l, .done) →
    ∃ l2, l = c :: l2 ∧ seqOkAux t v1 c l2 = true := by
  intro n
  induction n with
  | zero => intro c l h; simp [runAux] at h
  | succ n ih =>
    intro c l h
    simp only [runAux] at h
    cases hstep : stepCrossing t v0 v1 sf c with
    | error e => rw [hstep] at h; simp at h
    | ok nxt =>
      rw [hstep] at h
      simp only at h
      have hl : l = c :: (runAux t v0 v1 sf n nxt).1 := by
        have := congrArg Prod.fst h; simpa using this.symm
      have hdone : (runAux t v0 v1 sf n nxt).2 = .done := by
        have := congrArg Prod.snd h; simpa using this
      cases nxt with
      | none =>
        refine ⟨_, hl, ?_⟩
        have hnil : (runAux t v0 v1 sf n (none : Option Crossing)).1 = [] := by
          cases n <;> simp [runAux]
        rw [hnil]
        show lastOkB t v1 c = true
        cases c with
        | start f v =>
          exfalso
          simp only [stepCrossing] at hstep
          cases hse : searchEdge t v0 v1 f v <;> rw [hse] at hstep <;>
            simp [Except.map] at hstep
        | positiveEdge f e =>
          exfalso
          simp only [stepCrossing] at hstep
          cases hse : searchEdge t v0 v1 f e <;> rw [hse] at hstep <;>
            simp [Except.map] at hstep
        | negativeEdge f e =>
          exfalso
          simp only [stepCrossing] at hstep
          cases hse : searchEdge t v0 v1 f e <;> rw [hse] at hstep <;>
            simp [Except.map] at hstep
        | end_ f v =>
          simp only [stepCrossing] at hstep
          have := (searchVertex_ok_none_iff t v0 v1 _ v0 sf _ hstep).mp rfl
          simp [lastOkB, this]
        | coincidentEdge f e =>
          simp only [stepCrossing] at hstep
          have := (searchVertex_ok_none_iff t v0 v1 _ _ sf _ hstep).mp rfl
          simp [lastOkB, this]
      | some c' =>
        obtain ⟨l3, hl3, hok⟩ := ih c' _ (by
          have : runAux t v0 v1 sf n (some c') =
              ((runAux t v0 v1 sf n (some c')).1, .done) := by
            rw [← hdone]
          exact this)
        refine ⟨_, hl, ?_⟩
        rw [hl3]
        show seqOkAux t v1 c (c' :: l3) = true
        simp only [seqOkAux, Bool.and_eq_true]
        refine ⟨?_, hok⟩
        cases c with
        | start f v =>
          simp only [stepCrossing] at hstep
          cases hse : searchEdge t v0 v1 f v <;> rw [hse] at hstep <;>
            simp [Except.map] at hstep
          cases hstep
          simpa [allowedNext] using searchEdge_shape t v0 v1 f v _ hse
        | positiveEdge f e =>
          simp only [stepCrossing] at hstep
          cases hse : searchEdge t v0 v1 f e <;> rw [hse] at hstep <;>
            simp [Except.map] at hstep
          cases hstep
          simpa [allowedNext] using searchEdge_shape t v0 v1 f e _ hse
        | negativeEdge f e =>
          simp only [stepCrossing] at hstep
          cases hse : searchEdge t v0 v1 f e <;> rw [hse] at hstep <;>
            simp [Except.map] at hstep
          cases hstep
          simpa [allowedNext] using searchEdge_shape t v0 v1 f e _ hse
        | end_ f v =>
          simp only [stepCrossing] at hstep
          have hne2 : t.vi (.faceVertex f v) ≠ v1 := by
            intro he
            have := (searchVertex_ok_none_iff t v0 v1 _ v0 sf _ hstep).mpr he
            simp at this
          have hsh := searchVertex_ok_shape t v0 v1 _ v0 sf _ hstep
          simp [allowedNext, hne2, hsh]
        | coincidentEdge f e =>
          simp only [stepCrossing] at hstep
          have hne2 : t.vi (.edgeEnd f e) ≠ v1 := by
            intro he
            have := (searchVertex_ok_none_iff t v0 v1 _ _ sf _ hstep).mpr he
            simp at this
          have hsh := searchVertex_ok_shape t v0 v1 _ _ sf _ hstep
          simp [allowedNext, hne2, hsh]

theorem seqOkAux_count (t : Triangulation) (v1 : VertexIndex) :
    ∀ (l : List Crossing) (c : Crossing),
    seqOkAux t v1 c l = true → countStart l + opens c = countEnd l := by
  intro l
  induction l with
  | nil =>
    intro c h
    cases c <;> simp_all [seqOkAux, lastOkB, opens, countStart, countEnd]
  | cons c' l2 ih =>
    intro c h
    simp only [seqOkAux, Bool.and_eq_true] at h
    obtain ⟨ha, hr⟩ := h
    have := ih c' hr
    cases c <;> cases c' <;>
      simp_all [allowedNext, isEShape, isVShape, opens, countStart, countEnd,
        List.filter]

theorem seqOk_count (t : Triangulation) (v1 : VertexIndex) (l : List Crossing)
    (h : seqOk t v1 l = true) : countStart l = countEnd l := by
  cases l with
  | nil => rfl
  | cons c l2 =>
    simp only [seqOk, Bool.and_eq_true] at h
    obtain ⟨hv, hr⟩ := h
    have := seqOkAux_count t v1 l2 c hr
    cases c <;> simp_all [isVShape, opens, countStart, countEnd, List.filter]

theorem crossingSeq_done_structure (t : Triangulation) (v0 v1 : VertexIndex)
    (sf n : Nat) (l : List Crossing)
    (hdim : t.dimension = 2) (hne : v0 ≠ v1)
    (hf0 : v0 ≠ t.infiniteVertex) (hf1 : v1 ≠ t.infiniteVertex)
    (h : crossingSeq t v0 v1 sf n = (l, .done)) :
    l ≠ [] ∧ seqOk t v1 l = true := by
  unfold crossingSeq newCrossingIterator at h
  rw [if_neg (by simp [hdim]), if_neg hne, if_neg hf0, if_neg hf1] at h
  cases hsv : searchVertex t v0 v1 v0 v0 sf with
  | error e => rw [hsv] at h; simp at h
  | ok cur =>
    rw [hsv] at h
    cases cur with
    | none => exact absurd ((searchVertex_ok_none_iff t v0 v1 v0 v0 sf _ hsv).mp rfl) hne
    | some c =>
      obtain ⟨l2, hl2, hok⟩ := runAux_some_structure t v0 v1 sf n c l h
      have hsh := searchVertex_ok_shape t v0 v1 v0 v0 sf c hsv
      subst hl2
      exact ⟨by simp, by simp [seqOk, hsh, hok]⟩

theorem findLoopAux_eq_find (t : Triangulation) (b : VertexIndex) (start : FaceEdge) :
    ∀ (fuel : Nat) (e : FaceEdge),
    findLoopAux t b start fuel e =
      (visitedList t start fuel e).find?
        (fun e' => decide (t.vi (.edgeEnd e'.face e'.edge) = b)) := by
  intro fuel
  induction fuel with
  | zero => intro e; simp [findLoopAux, visitedList]
  | succ n ih =>
    intro e
    simp only [findLoopAux, visitedList]
    by_cases hb : t.vi (.edgeEnd e.face e.edge) = b
    · rw [if_pos hb, List.find?_cons_of_pos _ (by simp [hb])]
    · rw [if_neg hb, List.find?_cons_of_neg _ (by simp [hb])]
      by_cases hs : t.nextCcw e = start
      · rw [if_pos hs, if_pos hs]; rfl
      · rw [if_neg hs, if_neg hs]; exact ih _

theorem findLoopAux_fuel_congr (t : Triangulation) (b : VertexIndex) (s : FaceEdge) :
    ∀ (j : Nat) (e : FaceEdge), Nat.iterate t.nextCcw j e = s → 1 ≤ j →
    ∀ (n m : Nat), j ≤ n → j ≤ m →
    findLoopAux t b s n e = findLoopAux t b s m e := by
  intro j
  induction j with
  | zero => intro e _ h1; omega
  | succ j ih =>
    intro e hiter _ n m hn hm
    obtain ⟨n2, rfl⟩ : ∃ n2, n = n2 + 1 := ⟨n - 1, by omega⟩
    obtain ⟨m2, rfl⟩ : ∃ m2, m = m2 + 1 := ⟨m - 1, by omega⟩
    simp only [findLoopAux]
    by_cases hb : t.vi (.edgeEnd e.face e.edge) = b
    · rw [if_pos hb, if_pos hb]
    · rw [if_neg hb, if_neg hb]
      by_cases hs : t.nextCcw e = s
      · rw [if_pos hs, if_pos hs]
      · rw [if_neg hs, if_neg hs]
        have hiter2 : Nat.iterate t.nextCcw j (t.nextCcw e) = s := by
          rw [← Function.iterate_succ_apply]; exact hiter
        have hj : 1 ≤ j := by
          rcases Nat.eq_zero_or_pos j with h0 | h1
          · subst h0; simp at hiter2; exact absurd hiter2 hs
          · exact h1
        exact ih _ hiter2 hj n2 m2 (by omega) (by omega)

theorem searchVertexLoop_fuel_mono (t : Triangulation) (v0 v1 sv : VertexIndex) :
    ∀ (n m : Nat) (cur : FaceEdge) (so : Option OrientationType)
      (r : Option Crossing), n ≤ m →
    searchVertexLoop t v0 v1 sv n cur so = .ok r →
    searchVertexLoop t v0 v1 sv m cur so = .ok r := by
  intro n
  induction n with
  | zero => intro m cur so r _ h; simp [searchVertexLoop] at h
  | succ n ih =>
    intro m cur so r hnm h
    obtain ⟨m2, rfl⟩ : ∃ m2, m = m2 + 1 := ⟨m - 1, by omega⟩
    rcases searchVertexBody_cases t v0 v1 sv cur so with
      ⟨nxt, so2, hb⟩ | hb | ⟨f, e, hb⟩ | ⟨f, e, hb⟩
    · rw [searchVertexLoop_succ_continue t v0 v1 sv n cur nxt so so2 hb] at h
      rw [searchVertexLoop_succ_continue t v0 v1 sv m2 cur nxt so so2 hb]
      exact ih m2 _ _ _ (by omega) h
    · rw [searchVertexLoop_succ_stop t v0 v1 sv n cur so _ hb] at h
      rw [searchVertexLoop_succ_stop t v0 v1 sv m2 cur so _ hb]
      exact h
    · rw [searchVertexLoop_succ_stop t v0 v1 sv n cur so _ hb] at h
      rw [searchVertexLoop_succ_stop t v0 v1 sv m2 cur so _ hb]
      exact h
    · rw [searchVertexLoop_succ_stop t v0 v1 sv n cur so _ hb] at h
      rw [searchVertexLoop_succ_stop t v0 v1 sv m2 cur so _ hb]
      exact h

theorem searchVertexLoop_cw_reach (t : Triangulation) (v0 v1 : VertexIndex)
    (hv1inf : v1 ≠ t.infiniteVertex) (hne : v0 ≠ v1) :
    ∀ (m : Nat) (e : FaceEdge) (so : Option OrientationType) (fuel : Nat),
    (so = none ∨ so = some OrientationType.ccw) →
    (∀ i < m,
      t.vi (.edgeEnd (Nat.iterate t.advanceCw i e).face
        (Nat.iterate t.advanceCw i e).edge) ≠ v1 ∧
      (t.vi (.edgeEnd (Nat.iterate t.advanceCw i e).face
          (Nat.iterate t.advanceCw i e).edge) = t.infiniteVertex ∨
       t.vi (.edgeEnd (Nat.iterate t.advanceCw i e).face
          (Nat.iterate t.advanceCw i e).edge) = v0 ∨
       classify t v0 v1 v0
         (t.vi (.edgeEnd (Nat.iterate t.advanceCw i e).face
           (Nat.iterate t.advanceCw i e).edge)) = .orientC .ccw)) →
    t.vi (.edgeEnd (Nat.iterate t.advanceCw m e).face
      (Nat.iterate t.advanceCw m e).edge) = v1 →
    m + 1 ≤ fuel →
    searchVertexLoop t v0 v1 v0 fuel e so =
      .ok (some (.coincidentEdge (Nat.iterate t.advanceCw m e).face
        (Nat.iterate t.advanceCw m e).edge)) := by
  intro m
  induction m with
  | zero =>
    intro e so fuel hso hsteps hEnd hfuel
    obtain ⟨f2, rfl⟩ : ∃ f2, fuel = f2 + 1 := ⟨fuel - 1, by omega⟩
    simp only [Function.iterate_zero_apply] at hEnd ⊢
    have h1 : ¬(t.vi (.edgeEnd e.face e.edge) = t.infiniteVertex ∨
        t.vi (.edgeEnd e.face e.edge) = v0) := by
      rw [hEnd]; push_neg; exact ⟨hv1inf, fun h => hne h.symm⟩
    exact searchVertexLoop_succ_stop t v0 v1 v0 f2 e so _
      (searchVertexBody_v1 t v0 v1 v0 e so h1 hEnd)
  | succ m ih =>
    intro e so fuel hso hsteps hEnd hfuel
    obtain ⟨f2, rfl⟩ : ∃ f2, fuel = f2 + 1 := ⟨fuel - 1, by omega⟩
    obtain ⟨hne1, hdisj⟩ := hsteps 0 (by omega)
    simp only [Function.iterate_zero_apply] at hne1 hdisj
    have hshift : ∀ i, Nat.iterate t.advanceCw i (t.advanceCw e) =
        Nat.iterate t.advanceCw (i + 1) e := by
      intro i; rw [Function.iterate_succ_apply]
    by_cases hskip : t.vi (.edgeEnd e.face e.edge) = t.infiniteVertex ∨
      t.vi (.edgeEnd e.face e.edge) = v0
    · rw [searchVertexLoop_succ_continue t v0 v1 v0 f2 e _ so so
        (searchVertexBody_skip t v0 v1 v0 e so hskip)]
      have hg := ih (t.advanceCw e) so f2 hso
        (fun i hi => by rw [hshift i]; exact hsteps (i + 1) (by omega))
        (by rw [hshift m]; exact hEnd) (by omega)
      rw [hg, hshift m]
    · have hcl : classify t v0 v1 v0 (t.vi (.edgeEnd e.face e.edge)) =
          .orientC .ccw := by
        rcases hdisj with h | h | h
        · exact absurd (Or.inl h) hskip
        · exact absurd (Or.inr h) hskip
        · exact h
      have hb := searchVertexBody_orient t v0 v1 v0 e so OrientationType.ccw
        hskip hne1 hcl
      have hgetd : so.getD OrientationType.ccw = OrientationType.ccw := by
        rcases hso with rfl | rfl <;> rfl
      rw [hgetd, if_pos rfl, if_pos rfl] at hb
      rw [searchVertexLoop_succ_continue t v0 v1 v0 f2 e _ so _ hb]
      have hg := ih (t.advanceCw e) (some OrientationType.ccw) f2 (Or.inr rfl)
        (fun i hi => by rw [hshift i]; exact hsteps (i + 1) (by omega))
        (by rw [hshift m]; exact hEnd) (by omega)
      rw [hg, hshift m]

theorem searchVertexLoop_cycle2_diverges (t : Triangulation)
    (v0 v1 sv : VertexIndex) (e1 e2 : FaceEdge) (so : Option OrientationType)
    (h1 : searchVertexBody t v0 v1 sv e1 so = .continueS e2 so)
    (h2 : searchVertexBody t v0 v1 sv e2 so = .continueS e1 so) :
    ∀ fuel, searchVertexLoop t v0 v1 sv fuel e1 so = .error .fuelOut ∧
      searchVertexLoop t v0 v1 sv fuel e2 so = .error .fuelOut := by
  intro fuel
  induction fuel with
  | zero => exact ⟨rfl, rfl⟩
  | succ n ih =>
    constructor
    · rw [searchVertexLoop_succ_continue t v0 v1 sv n e1 e2 so so h1]
      exact ih.2
    · rw [searchVertexLoop_succ_continue t v0 v1 sv n e2 e1 so so h2]
      exact ih.1

theorem searchVertexLoop_cw_exit (t : Triangulation) (v0 v1 : VertexIndex)
    (hv1inf : v1 ≠ t.infiniteVertex) (hne : v0 ≠ v1) :
    ∀ (k : Nat) (e : FaceEdge) (so : Option OrientationType) (fuel : Nat),
    (so = none ∨ so = some OrientationType.ccw) →
    (∀ i < k,
      (t.vi (.edgeEnd (Nat.iterate t.advanceCw i e).face
          (Nat.iterate t.advanceCw i e).edge) = t.infiniteVertex ∨
       t.vi (.edgeEnd (Nat.iterate t.advanceCw i e).face
          (Nat.iterate t.advanceCw i e).edge) = v0) ∨
      (t.vi (.edgeEnd (Nat.iterate t.advanceCw i e).face
          (Nat.iterate t.advanceCw i e).edge) ≠ v1 ∧
       classify t v0 v1 v0
         (t.vi (.edgeEnd (Nat.iterate t.advanceCw i e).face
           (Nat.iterate t.advanceCw i e).edge)) = .orientC .ccw)) →
    (t.vi (.edgeEnd (Nat.iterate t.advanceCw k e).face
        (Nat.iterate t.advanceCw k e).edge) = v1 ∨
      (¬(t.vi (.edgeEnd (Nat.iterate t.advanceCw k e).face
            (Nat.iterate t.advanceCw k e).edge) = t.infiniteVertex ∨
         t.vi (.edgeEnd (Nat.iterate t.advanceCw k e).face
            (Nat.iterate t.advanceCw k e).edge) = v0) ∧
        (classify t v0 v1 v0
            (t.vi (.edgeEnd (Nat.iterate t.advanceCw k e).face
              (Nat.iterate t.advanceCw k e).edge)) = .emitC ∨
         classify t v0 v1 v0
            (t.vi (.edgeEnd (Nat.iterate t.advanceCw k e).face
              (Nat.iterate t.advanceCw k e).edge)) = .corruptC ∨
         (classify t v0 v1 v0
            (t.vi (.edgeEnd (Nat.iterate t.advanceCw k e).face
              (Nat.iterate t.advanceCw k e).edge)) = .orientC .cw ∧
          (so = some OrientationType.ccw ∨
            ∃ j, j < k ∧
              ¬(t.vi (.edgeEnd (Nat.iterate t.advanceCw j e).face
                  (Nat.iterate t.advanceCw j e).edge) = t.infiniteVertex ∨
                t.vi (.edgeEnd (Nat.iterate t.advanceCw j e).face
                  (Nat.iterate t.advanceCw j e).edge) = v0)))))) →
    k + 1 ≤ fuel →
    searchVertexLoop t v0 v1 v0 fuel e so ≠ .error .fuelOut := by
  intro k
  induction k with
  | zero =>
    intro e so fuel hso hpre hexit hfuel
    obtain ⟨f2, rfl⟩ : ∃ f2, fuel = f2 + 1 := ⟨fuel - 1, by omega⟩
    simp only [Function.iterate_zero_apply] at hexit
    by_cases hv1 : t.vi (.edgeEnd e.face e.edge) = v1
    · have h1 : ¬(t.vi (.edgeEnd e.face e.edge) = t.infiniteVertex ∨
          t.vi (.edgeEnd e.face e.edge) = v0) := by
        rw [hv1]; push_neg; exact ⟨hv1inf, fun h => hne h.symm⟩
      rw [searchVertexLoop_succ_stop t v0 v1 v0 f2 e so _
        (searchVertexBody_v1 t v0 v1 v0 e so h1 hv1)]
      simp
    · rcases hexit with hexit | ⟨hnskip, hcl⟩
      · exact absurd hexit hv1
      · rcases hcl with hcl | hcl | ⟨hcl, hsoc⟩
        · rw [searchVertexLoop_succ_stop t v0 v1 v0 f2 e so _
            (searchVertexBody_emit t v0 v1 v0 e so hnskip hv1 hcl)]
          simp
        · rw [searchVertexLoop_succ_stop t v0 v1 v0 f2 e so _
            (searchVertexBody_corrupt t v0 v1 v0 e so hnskip hv1 hcl)]
          simp
        · have hso2 : so = some OrientationType.ccw := by
            rcases hsoc with h | ⟨j, hj, -⟩
            · exact h
            · omega
          subst hso2
          have hb := searchVertexBody_orient t v0 v1 v0 e
            (some OrientationType.ccw) OrientationType.cw hnskip hv1 hcl
          rw [show (some OrientationType.ccw).getD OrientationType.cw =
            OrientationType.ccw from rfl] at hb
          rw [if_neg (by simp)] at hb
          rw [searchVertexLoop_succ_stop t v0 v1 v0 f2 e _ _ hb]
          simp
  | succ k ih =>
    intro e so fuel hso hpre hexit hfuel
    obtain ⟨f2, rfl⟩ : ∃ f2, fuel = f2 + 1 := ⟨fuel - 1, by omega⟩
    have hshift : ∀ i, Nat.iterate t.advanceCw i (t.advanceCw e) =
        Nat.iterate t.advanceCw (i + 1) e := by
      intro i; rw [Function.iterate_succ_apply]
    have hp0 := hpre 0 (by omega)
    simp only [Function.iterate_zero_apply] at hp0
    by_cases hskip : t.vi (.edgeEnd e.face e.edge) = t.infiniteVertex ∨
      t.vi (.edgeEnd e.face e.edge) = v0
    · rw [searchVertexLoop_succ_continue t v0 v1 v0 f2 e _ so so
        (searchVertexBody_skip t v0 v1 v0 e so hskip)]
      apply ih (t.advanceCw e) so f2 hso
      · intro i hi; rw [hshift i]; exact hpre (i + 1) (by omega)
      · rcases hexit with h | ⟨hnskip, hcl⟩
        · left; rw [hshift k]; exact h
        · right
          refine ⟨by rw [hshift k]; exact hnskip, ?_⟩
          rcases hcl with h | h | ⟨h, hd⟩
          · left; rw [hshift k]; exact h
          · right; left; rw [hshift k]; exact h
          · right; right
            refine ⟨by rw [hshift k]; exact h, ?_⟩
            rcases hd with hd | ⟨j, hj, hns⟩
            · exact Or.inl hd
            · rcases j with - | j2
              · simp only [Function.iterate_zero_apply] at hns
                exact absurd hskip hns
              · refine Or.inr ⟨j2, by omega, ?_⟩
                rw [hshift j2]; exact hns
      · omega
    · rcases hp0 with hp0 | hp0
      · exact absurd hp0 hskip
      obtain ⟨hnv1, hccw⟩ := hp0
      have hb := searchVertexBody_orient t v0 v1 v0 e so
        OrientationType.ccw hskip hnv1 hccw
      have hgetd : so.getD OrientationType.ccw = OrientationType.ccw := by
        rcases hso with rfl | rfl <;> rfl
      rw [hgetd, if_pos rfl, if_pos rfl] at hb
      rw [searchVertexLoop_succ_continue t v0 v1 v0 f2 e _ so _ hb]
      apply ih (t.advanceCw e) (some OrientationType.ccw) f2 (Or.inr rfl)
      · intro i hi; rw [hshift i]; exact hpre (i + 1) (by omega)
      · rcases hexit with h | ⟨hnskip, hcl⟩
        · left; rw [hshift k]; exact h
        · right
          refine ⟨by rw [hshift k]; exact hnskip, ?_⟩
          rcases hcl with h | h | ⟨h, -⟩
          · left; rw [hshift k]; exact h
          · right; left; rw [hshift k]; exact h
          · right; right
            exact ⟨by rw [hshift k]; exact h, Or.inl rfl⟩
      · omega

theorem getNeighborIndex_some (fd : FaceData) (g : FaceIndex) (r : Rot3)
    (h : getNeighborIndex fd g = some r) : fd.neighbor r = g := by
  unfold getNeighborIndex at h
  split at h
  · injection h with h2; subst h2; simpa [FaceData.neighbor] using by assumption
  · split at h
    · injection h with h2; subst h2; simpa [FaceData.neighbor] using by assumption
    · split at h
      · injection h with h2; subst h2; simpa [FaceData.neighbor] using by assumption
      · simp at h

theorem getNeighborIndex_isSome (fd : FaceData) (g : FaceIndex) (r : Rot3)
    (h : fd.neighbor r = g) : ∃ j, getNeighborIndex fd g = some j := by
  unfold getNeighborIndex
  fin_cases r <;> simp [FaceData.neighbor] at h <;>
    (by_cases ha : fd.na = g
     · exact ⟨0, by rw [if_pos ha]⟩
     · by_cases hb : fd.nb = g
       · exact ⟨1, by rw [if_neg ha, if_pos hb]⟩
       · by_cases hc : fd.nc = g
         · exact ⟨2, by rw [if_neg ha, if_neg hb, if_pos hc]⟩
         · simp_all)

theorem getNeighborIndex_none_iff (fd : FaceData) (g : FaceIndex) :
    getNeighborIndex fd g = none ↔ ∀ r : Rot3, fd.neighbor r ≠ g := by
  constructor
  · intro h r
    unfold getNeighborIndex at h
    split at h
    · simp at h
    · split at h
      · simp at h
      · split at h
        · simp at h
        · fin_cases r <;> simp [FaceData.neighbor] <;> assumption
  · intro h
    unfold getNeighborIndex
    rw [if_neg (by simpa [FaceData.neighbor] using h 0),
      if_neg (by simpa [FaceData.neighbor] using h 1),
      if_neg (by simpa [FaceData.neighbor] using h 2)]

theorem dot2_self_pos (p0 p1 : Pos) (h : p0 ≠ p1) :
    0 < dot2 (psub p1 p0) (psub p1 p0) := by
  have h2 : p1.1 - p0.1 ≠ 0 ∨ p1.2 - p0.2 ≠ 0 := by
    by_contra hc
    push_neg at hc
    exact h (Prod.ext_iff.mpr ⟨by omega, by omega⟩).symm
  simp only [dot2, psub]
  rcases h2 with h2 | h2
  · rcases lt_or_gt_of_ne h2 with h3 | h3 <;> nlinarith [sq_nonneg (p1.2 - p0.2)]
  · rcases lt_or_gt_of_ne h2 with h3 | h3 <;> nlinarith [sq_nonneg (p1.1 - p0.1)]

theorem exactOrient_collinear_iff (p0 p1 p2 : Pos) :
    exactOrient p0 p1 p2 = .collinear ↔
      cross2 (psub p1 p0) (psub p2 p0) = 0 := by
  unfold exactOrient
  dsimp only
  split_ifs with h1 h2 <;> simp <;> omega

theorem exactCollinearTest_first_iff (p0 p1 p2 : Pos) :
    exactCollinearTest p0 p1 p2 = .first ↔
      dot2 (psub p2 p0) (psub p1 p0) = 0 := by
  unfold exactCollinearTest
  dsimp only
  split_ifs with h1 h2 h3 h4 <;> simp <;> omega

theorem exactCollinearTest_second_iff (p0 p1 p2 : Pos) :
    exactCollinearTest p0 p1 p2 = .second ↔
      (0 < dot2 (psub p2 p0) (psub p1 p0) ∧
       dot2 (psub p2 p0) (psub p1 p0) = dot2 (psub p1 p0) (psub p1 p0)) := by
  unfold exactCollinearTest
  dsimp only
  split_ifs with h1 h2 h3 h4 <;> simp <;> omega

theorem exactCollinearTest_after_iff (p0 p1 p2 : Pos) :
    exactCollinearTest p0 p1 p2 = .after ↔
      (0 < dot2 (psub p2 p0) (psub p1 p0) ∧
       dot2 (psub p1 p0) (psub p1 p0) < dot2 (psub p2 p0) (psub p1 p0)) := by
  unfold exactCollinearTest
  dsimp only
  split_ifs with h1 h2 h3 h4 <;> simp <;> omega

theorem exactCollinearTest_between_iff (p0 p1 p2 : Pos) :
    exactCollinearTest p0 p1 p2 = .between ↔
      (0 < dot2 (psub p2 p0) (psub p1 p0) ∧
       dot2 (psub p2 p0) (psub p1 p0) < dot2 (psub p1 p0) (psub p1 p0)) := by
  unfold exactCollinearTest
  dsimp only
  split_ifs with h1 h2 h3 h4 <;> simp <;> omega

theorem collinear_dot_zero_eq (p0 p1 pw : Pos) (hne : p0 ≠ p1)
    (hc : cross2 (psub p1 p0) (psub pw p0) = 0)
    (ht : dot2 (psub pw p0) (psub p1 p0) = 0) : pw = p0 := by
  have hL := dot2_self_pos p0 p1 hne
  have h1 : (pw.1 - p0.1) * dot2 (psub p1 p0) (psub p1 p0) =
      (p1.1 - p0.1) * dot2 (psub pw p0) (psub p1 p0) -
      (p1.2 - p0.2) * cross2 (psub p1 p0) (psub pw p0) := by
    simp only [dot2, cross2, psub]; ring
  have h2 : (pw.2 - p0.2) * dot2 (psub p1 p0) (psub p1 p0) =
      (p1.2 - p0.2) * dot2 (psub pw p0) (psub p1 p0) +
      (p1.1 - p0.1) * cross2 (psub p1 p0) (psub pw p0) := by
    simp only [dot2, cross2, psub]; ring
  rw [hc, ht] at h1 h2
  simp only [mul_zero, sub_zero, add_zero, zero_sub, neg_zero, mul_eq_zero] at h1 h2
  refine Prod.ext_iff.mpr ⟨?_, ?_⟩
  · rcases h1 with h | h
    · omega
    · omega
  · rcases h2 with h | h
    · omega
    · omega

theorem collinear_dot_len_eq (p0 p1 pw : Pos) (hne : p0 ≠ p1)
    (hc : cross2 (psub p1 p0) (psub pw p0) = 0)
    (ht : dot2 (psub pw p0) (psub p1 p0) = dot2 (psub p1 p0) (psub p1 p0)) :
    pw = p1 := by
  have hL := dot2_self_pos p0 p1 hne
  have h1 : (pw.1 - p1.1) * dot2 (psub p1 p0) (psub p1 p0) =
      (p1.1 - p0.1) *
        (dot2 (psub pw p0) (psub p1 p0) - dot2 (psub p1 p0) (psub p1 p0)) -
      (p1.2 - p0.2) * cross2 (psub p1 p0) (psub pw p0) := by
    simp only [dot2, cross2, psub]; ring
  have h2 : (pw.2 - p1.2) * dot2 (psub p1 p0) (psub p1 p0) =
      (p1.2 - p0.2) *
        (dot2 (psub pw p0) (psub p1 p0) - dot2 (psub p1 p0) (psub p1 p0)) +
      (p1.1 - p0.1) * cross2 (psub p1 p0) (psub pw p0) := by
    simp only [dot2, cross2, psub]; ring
  rw [hc, ht] at h1 h2
  simp only [sub_self, mul_zero, sub_zero, add_zero, zero_sub, neg_zero,
    mul_eq_zero] at h1 h2
  refine Prod.ext_iff.mpr ⟨?_, ?_⟩
  · rcases h1 with h | h
    · omega
    · omega
  · rcases h2 with h | h
    · omega
    · omega

theorem strictBetween_of_params (p0 p1 pb pw : Pos) (hne : p0 ≠ p1)
    (hcb : cross2 (psub p1 p0) (psub pb p0) = 0)
    (hcw : cross2 (psub p1 p0) (psub pw p0) = 0)
    (htb0 : 0 ≤ dot2 (psub pb p0) (psub p1 p0))
    (htbL : dot2 (psub pb p0) (psub p1 p0) < dot2 (psub p1 p0) (psub p1 p0))
    (htwL : dot2 (psub p1 p0) (psub p1 p0) < dot2 (psub pw p0) (psub p1 p0)) :
    strictBetween pb pw p1 := by
  have hL := dot2_self_pos p0 p1 hne
  have hu : cross2 (psub p1 p0) (psub pw pb) =
      cross2 (psub p1 p0) (psub pw p0) - cross2 (psub p1 p0) (psub pb p0) := by
    simp only [cross2, psub]; ring
  have hv : cross2 (psub p1 p0) (psub p1 pb) =
      - cross2 (psub p1 p0) (psub pb p0) := by
    simp only [cross2, psub]; ring
  have hw : cross2 (psub p1 p0) (psub pb pw) =
      cross2 (psub p1 p0) (psub pb p0) - cross2 (psub p1 p0) (psub pw p0) := by
    simp only [cross2, psub]; ring
  have hx : cross2 (psub p1 p0) (psub p1 pw) =
      - cross2 (psub p1 p0) (psub pw p0) := by
    simp only [cross2, psub]; ring
  rw [hcb] at hu hv hw
  rw [hcw] at hu hw hx
  simp only [sub_zero, zero_sub, neg_zero, sub_self] at hu hv hw hx
  refine ⟨?_, ?_, ?_⟩
  · have key : dot2 (psub p1 p0) (psub p1 p0) *
        cross2 (psub pw pb) (psub p1 pb) =
        dot2 (psub p1 p0) (psub pw pb) * cross2 (psub p1 p0) (psub p1 pb) -
        dot2 (psub p1 p0) (psub p1 pb) * cross2 (psub p1 p0) (psub pw pb) := by
      simp only [dot2, cross2, psub]; ring
    rw [hu, hv] at key
    simp only [mul_zero, sub_zero, zero_sub, neg_zero] at key
    rcases mul_eq_zero.mp key with h | h
    · omega
    · exact h
  · have key : dot2 (psub p1 p0) (psub p1 p0) *
        dot2 (psub p1 pb) (psub pw pb) =
        dot2 (psub p1 p0) (psub p1 pb) * dot2 (psub p1 p0) (psub pw pb) +
        cross2 (psub p1 p0) (psub p1 pb) * cross2 (psub p1 p0) (psub pw pb) := by
      simp only [dot2, cross2, psub]; ring
    have hd1 : dot2 (psub p1 p0) (psub p1 pb) =
        dot2 (psub p1 p0) (psub p1 p0) - dot2 (psub pb p0) (psub p1 p0) := by
      simp only [dot2, psub]; ring
    have hd2 : dot2 (psub p1 p0) (psub pw pb) =
        dot2 (psub pw p0) (psub p1 p0) - dot2 (psub pb p0) (psub p1 p0) := by
      simp only [dot2, psub]; ring
    rw [hu, hv, hd1, hd2] at key
    simp only [mul_zero, add_zero, zero_mul, neg_zero] at key
    nlinarith
  · have key : dot2 (psub p1 p0) (psub p1 p0) *
        dot2 (psub p1 pw) (psub pb pw) =
        dot2 (psub p1 p0) (psub p1 pw) * dot2 (psub p1 p0) (psub pb pw) +
        cross2 (psub p1 p0) (psub p1 pw) * cross2 (psub p1 p0) (psub pb pw) := by
      simp only [dot2, cross2, psub]; ring
    have hd3 : dot2 (psub p1 p0) (psub p1 pw) =
        dot2 (psub p1 p0) (psub p1 p0) - dot2 (psub pw p0) (psub p1 p0) := by
      simp only [dot2, psub]; ring
    have hd4 : dot2 (psub p1 p0) (psub pb pw) =
        dot2 (psub pb p0) (psub p1 p0) - dot2 (psub pw p0) (psub p1 p0) := by
      simp only [dot2, psub]; ring
    rw [hx, hw, hd3, hd4] at key
    simp only [mul_zero, add_zero, zero_mul, neg_zero] at key
    nlinarith

theorem runAux_length_le (t : Triangulation) (v0 v1 : VertexIndex) (sf : Nat) :
    ∀ (n : Nat) (cur : Option Crossing),
    (runAux t v0 v1 sf n cur).1.length ≤ n := by
  intro n
  induction n with
  | zero => intro cur; cases cur <;> simp [runAux]
  | succ n ih =>
    intro cur
    cases cur with
    | none => simp [runAux]
    | some c =>
      simp only [runAux]
      cases stepCrossing t v0 v1 sf c with
      | error e => simp
      | ok nxt => simpa using Nat.succ_le_succ (ih nxt)

theorem runAux_none (t : Triangulation) (v0 v1 : VertexIndex) (sf n : Nat) :
    runAux t v0 v1 sf n none = ([], .done) := by
  cases n <;> simp [runAux]

theorem classify_of_startV (t : Triangulation) (v0 v1 sv w : VertexIndex)
    (hsv : w = sv) : classify t v0 v1 sv w = .orientC .ccw := by
  unfold classify
  rw [if_pos hsv]

theorem classify_of_ccw (t : Triangulation) (v0 v1 sv w : VertexIndex)
    (hsv : w ≠ sv)
    (h : t.orientFn (t.pos v0) (t.pos v1) (t.pos w) = .ccw) :
    classify t v0 v1 sv w = .orientC .ccw := by
  unfold classify
  dsimp only
  rw [if_neg hsv, h]

theorem classify_of_cw (t : Triangulation) (v0 v1 sv w : VertexIndex)
    (hsv : w ≠ sv)
    (h : t.orientFn (t.pos v0) (t.pos v1) (t.pos w) = .cw) :
    classify t v0 v1 sv w = .orientC .cw := by
  unfold classify
  dsimp only
  rw [if_neg hsv, h]

theorem classify_of_collinear (t : Triangulation) (v0 v1 sv w : VertexIndex)
    (hsv : w ≠ sv)
    (h : t.orientFn (t.pos v0) (t.pos v1) (t.pos w) = .collinear) :
    classify t v0 v1 sv w =
      match t.collinearFn (t.pos v0) (t.pos v1) (t.pos w) with
      | .before => .orientC .ccw
      | .first => .corruptC
      | .between => .emitC
      | .second => .corruptC
      | .after => .corruptC := by
  unfold classify
  dsimp only
  rw [if_neg hsv, h]

theorem searchEdge_eq_of_some (t : Triangulation) (v0 v1 : VertexIndex)
    (f : FaceIndex) (e vidx : Rot3)
    (hn : getNeighborIndex (t.face ((t.face f).neighbor e)) f = some vidx) :
    searchEdge t v0 v1 f e =
      (if (t.face ((t.face f).neighbor e)).vertex vidx = v1 then
        .ok (.end_ ((t.face f).neighbor e) vidx)
      else
        match t.orientFn (t.pos v0) (t.pos v1)
          (t.pos ((t.face ((t.face f).neighbor e)).vertex vidx)) with
        | .collinear => .ok (.end_ ((t.face f).neighbor e) vidx)
        | .ccw => .ok (.negativeEdge ((t.face f).neighbor e) vidx.increment)
        | .cw => .ok (.positiveEdge ((t.face f).neighbor e) vidx.decrement)) := by
  unfold searchEdge
  dsimp only
  rw [hn]

/-- C1 counterexample: in the collinear-passthrough mesh the two finite
endpoints are not directly connected, the run completes, and the emitted
sequence is two `CoincidentEdge` events — it contains no `Start` and no
`End` at all, and its final event is not an `End`, contradicting the
claim that every such sequence has exactly one `Start` and one `End`
with the `End` last. -/
theorem c1_counterexample :
    ceCollinear.dimension = 2 ∧ (0 : VertexIndex) ≠ 2 ∧
    (0 : VertexIndex) ≠ ceCollinear.infiniteVertex ∧
    (2 : VertexIndex) ≠ ceCollinear.infiniteVertex ∧
    findEdgeByVertex ceCollinear 0 2 = none ∧
    crossingSeq ceCollinear 0 2 20 20 =
      ([.coincidentEdge 0 2, .coincidentEdge 1 2], .done) ∧
    countStart [Crossing.coincidentEdge 0 2, Crossing.coincidentEdge 1 2] = 0 ∧
    countEnd [Crossing.coincidentEdge 0 2, Crossing.coincidentEdge 1 2] = 0 := by
  decide

/-- C1 (amended): for every 2-dimensional triangulation and finite
distinct `v0`, `v1`, every completed run of the crossing iterator is
nonempty and well-structured: it opens with a vertex-search event
(`Start` or `CoincidentEdge`), every `Start` is followed by
`PositiveEdge`/`NegativeEdge` events and then an `End`, events follow an
`End` or a `CoincidentEdge` exactly when that event's vertex is not
`v1`, the final event is an `End` at a `v1`-bearing corner or a
`CoincidentEdge` whose end vertex is `v1`, and the numbers of `Start`
and `End` events are equal. -/
theorem c1_amended (t : Triangulation) (v0 v1 : VertexIndex) (sf n : Nat)
    (l : List Crossing)
    (hdim : t.dimension = 2) (hne : v0 ≠ v1)
    (hf0 : v0 ≠ t.infiniteVertex) (hf1 : v1 ≠ t.infiniteVertex)
    (h : crossingSeq t v0 v1 sf n = (l, .done)) :
    l ≠ [] ∧ seqOk t v1 l = true ∧ countStart l = countEnd l := by
  obtain ⟨h1, h2⟩ := crossingSeq_done_structure t v0 v1 sf n l hdim hne hf0 hf1 h
  exact ⟨h1, h2, seqOk_count t v1 l h2⟩

/-- Witness for C1 (amended) at the intermediate-`End` mesh. -/
theorem c1_witness :
    ([Crossing.start 0 0, Crossing.end_ 1 2, Crossing.coincidentEdge 2 0] :
      List Crossing) ≠ [] ∧
    seqOk ceMidEnd 4
      [Crossing.start 0 0, Crossing.end_ 1 2, Crossing.coincidentEdge 2 0] = true ∧
    countStart [Crossing.start 0 0, Crossing.end_ 1 2, Crossing.coincidentEdge 2 0] =
      countEnd [Crossing.start 0 0, Crossing.end_ 1 2, Crossing.coincidentEdge 2 0] :=
  c1_amended ceMidEnd 0 4 20 20 _
    (by decide) (by decide) (by decide) (by decide) (by decide)

/-- C2 counterexample: in the intermediate-`End` mesh the run emits an
`End` event at a corner bearing the collinear interior vertex (not
`v1`), and a further `CoincidentEdge` event is emitted after it, so an
`End` is not terminal. -/
theorem c2_counterexample :
    crossingSeq ceMidEnd 0 4 20 20 =
      ([.start 0 0, .end_ 1 2, .coincidentEdge 2 0], .done) ∧
    ceMidEnd.vi (.faceVertex 1 2) ≠ 4 ∧
    (crossingSeq ceMidEnd 0 4 20 20).1.drop 1 =
      [.end_ 1 2, .coincidentEdge 2 0] := by
  decide

/-- C2 (amended): an `End` event whose corner bears `v1` is terminal:
after the iterator returns it, every subsequent call returns nothing.
(An `End` at a corner not bearing `v1` instead resumes with a
vertex-search from that corner's vertex, as the counterexample shows.) -/
theorem c2_amended (t : Triangulation) (v0 v1 : VertexIndex) (sf n : Nat)
    (f : FaceIndex) (v : Rot3)
    (h : t.vi (.faceVertex f v) = v1) :
    runAux t v0 v1 sf (n + 1) (some (.end_ f v)) = ([.end_ f v], .done) := by
  have hstep : stepCrossing t v0 v1 sf (.end_ f v) = .ok none := by
    simp only [stepCrossing]
    rw [h]
    unfold searchVertex
    dsimp only
    rw [if_pos rfl]
  simp only [runAux]
  rw [hstep]
  simp [runAux_none]

/-- Witness for C2 (amended): an `End` at the `v1`-bearing corner of
face 2 of the intermediate-`End` mesh is followed by exhaustion. -/
theorem c2_witness :
    ceMidEnd.vi (.faceVertex 2 2) = 4 ∧
    runAux ceMidEnd 0 4 20 6 (some (.end_ 2 2)) = ([.end_ 2 2], .done) :=
  ⟨by decide, c2_amended ceMidEnd 0 4 20 5 2 2 (by decide)⟩

/-- C5: construction of the crossing iterator reports a caller error
exactly when the triangulation is not 2-dimensional, or the two vertices
coincide, or one of them is the infinite vertex; the checks run before
the initial vertex-search, which never raises a caller error. -/
theorem c5_construction (t : Triangulation) (v0 v1 : VertexIndex) (sf : Nat) :
    newCrossingIterator t v0 v1 sf = .error .caller ↔
      ¬(t.dimension = 2 ∧ v0 ≠ v1 ∧ v0 ≠ t.infiniteVertex ∧
        v1 ≠ t.infiniteVertex) := by
  unfold newCrossingIterator
  constructor
  · intro h
    rw [not_and_or, not_and_or, not_and_or]
    by_cases h1 : t.dimension = 2
    · by_cases h2 : v0 = v1
      · exact Or.inr (Or.inl (by simpa using h2))
      · by_cases h3 : v0 = t.infiniteVertex
        · exact Or.inr (Or.inr (Or.inl (by simpa using h3)))
        · by_cases h4 : v1 = t.infiniteVertex
          · exact Or.inr (Or.inr (Or.inr (by simpa using h4)))
          · rw [if_neg (by simp [h1]), if_neg h2, if_neg h3, if_neg h4] at h
            exact absurd h (searchVertex_no_caller t v0 v1 v0 v0 sf)
    · exact Or.inl h1
  · intro h
    by_cases h1 : t.dimension ≠ 2
    · rw [if_pos h1]
    · rw [if_neg h1]
      rw [not_ne_iff] at h1
      by_cases h2 : v0 = v1
      · rw [if_pos h2]
      · rw [if_neg h2]
        by_cases h3 : v0 = t.infiniteVertex
        · rw [if_pos h3]
        · rw [if_neg h3]
          by_cases h4 : v1 = t.infiniteVertex
          · rw [if_pos h4]
          · exact absurd ⟨h1, h2, h3, h4⟩ h

/-- C10: a vertex-search returns no crossing exactly when its base
vertex is `v1`; for any other base a returning search always carries a
crossing (a non-returning search signals corruption or circulates
forever, modelled by the fuel error). -/
theorem c10_vertex_search (t : Triangulation) (v0 v1 base sv : VertexIndex)
    (sf : Nat) (r : Option Crossing)
    (h : searchVertex t v0 v1 base sv sf = .ok r) : r = none ↔ base = v1 :=
  searchVertex_ok_none_iff t v0 v1 base sv sf r h

/-- Witness for C10: on the tetrahedron, the search from `v1` returns
empty, and the search from `v0` returns a crossing. -/
theorem c10_witness :
    ((none : Option Crossing) = none ↔ (1 : VertexIndex) = 1) ∧
    ((some (Crossing.coincidentEdge 0 2) : Option Crossing) = none ↔
      (0 : VertexIndex) = 1) :=
  ⟨c10_vertex_search ceTetra 0 1 1 0 5 none (by decide),
   c10_vertex_search ceTetra 0 1 0 0 5 (some (.coincidentEdge 0 2)) (by decide)⟩

/-- C9 counterexample: the bounce mesh is structurally valid in every
sense the specification states — mutual twin links, distinct finite
positions, no vertex strictly inside a finite edge, a closed circulator
orbit around `v0`, and `v0`, `v1` even directly connected — and uses
the exact (hence self-consistent) predicates, yet the vertex-search of
the crossing iterator never terminates: once the start orientation is
fixed clockwise, the loop alternates forever between the edge to the
third vertex and the edge to the infinite vertex, because the skip
branch steps clockwise while the CW mode circulates counterclockwise.
The search returns fuel exhaustion at fuel 100 and at fuel 54321, and
one iteration of the loop body maps each of the two states to the
other. -/
theorem c9_counterexample :
    ceBounce.dimension = 2 ∧ (0 : VertexIndex) ≠ 1 ∧
    (0 : VertexIndex) ≠ ceBounce.infiniteVertex ∧
    (1 : VertexIndex) ≠ ceBounce.infiniteVertex ∧
    TwinListed ceBounce ∧ PosInjective ceBounce ∧
    NoVertexInsideEdge ceBounce ∧
    Nat.iterate ceBounce.advanceCw 3 (circulatorInit ceBounce 0) =
      circulatorInit ceBounce 0 ∧
    findEdgeByVertex ceBounce 0 1 = some ⟨0, 2⟩ ∧
    searchVertexBody ceBounce 0 1 0 ⟨2, 2⟩ (some OrientationType.cw) =
      .continueS ⟨1, 2⟩ (some OrientationType.cw) ∧
    searchVertexBody ceBounce 0 1 0 ⟨1, 2⟩ (some OrientationType.cw) =
      .continueS ⟨2, 2⟩ (some OrientationType.cw) ∧
    searchVertex ceBounce 0 1 0 0 100 = .error .fuelOut ∧
    searchVertex ceBounce 0 1 0 0 54321 = .error .fuelOut := by
  refine ⟨by decide, by decide, by decide, by decide, by decide, by decide,
    by decide, by decide, by decide, by decide, by decide, by decide, ?_⟩
  have hinit : circulatorInit ceBounce 0 = ⟨1, 2⟩ := by decide
  have hb0 : searchVertexBody ceBounce 0 1 0 ⟨1, 2⟩ none =
      .continueS ⟨2, 2⟩ (some OrientationType.cw) := by decide
  have hb1 : searchVertexBody ceBounce 0 1 0 ⟨2, 2⟩ (some OrientationType.cw) =
      .continueS ⟨1, 2⟩ (some OrientationType.cw) := by decide
  have hb2 : searchVertexBody ceBounce 0 1 0 ⟨1, 2⟩ (some OrientationType.cw) =
      .continueS ⟨2, 2⟩ (some OrientationType.cw) := by decide
  unfold searchVertex
  dsimp only
  rw [if_neg (by decide), hinit, show (54321 : Nat) = 54320 + 1 from rfl,
    searchVertexLoop_succ_continue ceBounce 0 1 0 54320 ⟨1, 2⟩ ⟨2, 2⟩ none
      (some OrientationType.cw) hb0]
  exact (searchVertexLoop_cycle2_diverges ceBounce 0 1 0 ⟨2, 2⟩ ⟨1, 2⟩
    (some OrientationType.cw) hb1 hb2 54320).1

/-- C9 (amended): the circulation loop of `find_edge_by_vertex` is
decided within one full revolution around its base vertex: when the
counterclockwise circulation returns to its starting edge after `d`
steps, the full-fuel run equals the run with fuel `d`.  A vertex-search
step of the crossing iterator from `v0` terminates within one clockwise
revolution — any fuel beyond the exit position yields a decided result,
never fuel exhaustion — provided the clockwise circulation from the
initial edge reaches an exiting edge (far vertex `v1`, a
collinear-between vertex, a fatal branch, or a clockwise-classified
vertex after the direction was fixed counterclockwise) with every
earlier edge skipped or classified counterclockwise; this is the
configuration consistent geometry produces, and without it the search
can circulate forever, as the counterexample shows. -/
theorem c9_termination_bounds :
    (∀ (t : Triangulation) (a b : VertexIndex) (d : Nat),
      1 ≤ d → d ≤ findFuel t →
      Nat.iterate t.nextCcw d (t.nextCcw (circulatorInit t a)) =
        t.nextCcw (circulatorInit t a) →
      findEdgeByVertex t a b =
        findLoopAux t b (t.nextCcw (circulatorInit t a)) d
          (t.nextCcw (circulatorInit t a))) ∧
    (∀ (t : Triangulation) (v0 v1 : VertexIndex) (k fuel : Nat),
      v1 ≠ t.infiniteVertex → v0 ≠ v1 →
      (∀ i < k,
        (t.vi (.edgeEnd (Nat.iterate t.advanceCw i (circulatorInit t v0)).face
            (Nat.iterate t.advanceCw i (circulatorInit t v0)).edge) =
              t.infiniteVertex ∨
         t.vi (.edgeEnd (Nat.iterate t.advanceCw i (circulatorInit t v0)).face
            (Nat.iterate t.advanceCw i (circulatorInit t v0)).edge) = v0) ∨
        (t.vi (.edgeEnd (Nat.iterate t.advanceCw i (circulatorInit t v0)).face
            (Nat.iterate t.advanceCw i (circulatorInit t v0)).edge) ≠ v1 ∧
         classify t v0 v1 v0
           (t.vi (.edgeEnd (Nat.iterate t.advanceCw i (circulatorInit t v0)).face
             (Nat.iterate t.advanceCw i (circulatorInit t v0)).edge)) =
           .orientC .ccw)) →
      (t.vi (.edgeEnd (Nat.iterate t.advanceCw k (circulatorInit t v0)).face
          (Nat.iterate t.advanceCw k (circulatorInit t v0)).edge) = v1 ∨
        (¬(t.vi (.edgeEnd (Nat.iterate t.advanceCw k (circulatorInit t v0)).face
              (Nat.iterate t.advanceCw k (circulatorInit t v0)).edge) =
                t.infiniteVertex ∨
           t.vi (.edgeEnd (Nat.iterate t.advanceCw k (circulatorInit t v0)).face
              (Nat.iterate t.advanceCw k (circulatorInit t v0)).edge) = v0) ∧
          (classify t v0 v1 v0
              (t.vi (.edgeEnd
                (Nat.iterate t.advanceCw k (circulatorInit t v0)).face
                (Nat.iterate t.advanceCw k (circulatorInit t v0)).edge)) =
              .emitC ∨
           classify t v0 v1 v0
              (t.vi (.edgeEnd
                (Nat.iterate t.advanceCw k (circulatorInit t v0)).face
                (Nat.iterate t.advanceCw k (circulatorInit t v0)).edge)) =
              .corruptC ∨
           (classify t v0 v1 v0
              (t.vi (.edgeEnd
                (Nat.iterate t.advanceCw k (circulatorInit t v0)).face
                (Nat.iterate t.advanceCw k (circulatorInit t v0)).edge)) =
              .orientC .cw ∧
            ∃ j, j < k ∧
              ¬(t.vi (.edgeEnd
                  (Nat.iterate t.advanceCw j (circulatorInit t v0)).face
                  (Nat.iterate t.advanceCw j (circulatorInit t v0)).edge) =
                    t.infiniteVertex ∨
                t.vi (.edgeEnd
                  (Nat.iterate t.advanceCw j (circulatorInit t v0)).face
                  (Nat.iterate t.advanceCw j (circulatorInit t v0)).edge) =
                    v0))))) →
      k + 1 ≤ fuel →
      searchVertex t v0 v1 v0 v0 fuel ≠ .error .fuelOut) := by
  constructor
  · intro t a b d hd1 hdF hiter
    unfold findEdgeByVertex
    dsimp only
    exact findLoopAux_fuel_congr t b _ d _ hiter hd1 (findFuel t) d hdF (le_refl d)
  · intro t v0 v1 k fuel hv1inf hne hpre hexit hfuel
    unfold searchVertex
    dsimp only
    rw [if_neg hne]
    apply searchVertexLoop_cw_exit t v0 v1 hv1inf hne k
      (circulatorInit t v0) none fuel (Or.inl rfl) hpre ?_ hfuel
    rcases hexit with h | ⟨hnskip, hcl⟩
    · exact Or.inl h
    · refine Or.inr ⟨hnskip, ?_⟩
      rcases hcl with h | h | ⟨h, hj⟩
      · exact Or.inl h
      · exact Or.inr (Or.inl h)
      · exact Or.inr (Or.inr ⟨h, Or.inr hj⟩)

/-- Witness for C9 (amended): the circulation around vertex 0 of the
intermediate-`End` mesh closes after 3 steps and decides the find loop;
on the tetrahedron the initial edge already exits (far vertex `v1`) so
the vertex-search is decided at every fuel beyond 1; on the wheel the
exit is the clockwise flip at the second examined edge. -/
theorem c9_witness :
    (findEdgeByVertex ceMidEnd 0 1 =
      findLoopAux ceMidEnd 1 (ceMidEnd.nextCcw (circulatorInit ceMidEnd 0)) 3
        (ceMidEnd.nextCcw (circulatorInit ceMidEnd 0))) ∧
    searchVertex ceTetra 0 1 0 0 5 ≠ .error .fuelOut ∧
    searchVertex ceWheel 0 1 0 0 9 ≠ .error .fuelOut :=
  ⟨c9_termination_bounds.1 ceMidEnd 0 1 3 (by decide) (by decide) (by decide),
   c9_termination_bounds.2 ceTetra 0 1 0 5 (by decide) (by decide)
     (fun i hi => absurd hi (Nat.not_lt_zero i)) (Or.inl (by decide))
     (by omega),
   c9_termination_bounds.2 ceWheel 0 1 1 9 (by decide) (by decide)
     (fun i hi => by
       have h0 : i = 0 := by omega
       subst h0
       decide)
     (Or.inr ⟨by decide, Or.inr (Or.inr ⟨by decide, 0, by omega, by decide⟩)⟩)
     (by omega)⟩

/-- C7: `find_edge_by_vertex` returns exactly the first edge of the
circulation around `a` whose end vertex resolves to `b` (the list of
examined edges being the counterclockwise circulation from the edge
after the initial one until it returns); it returns `none` exactly when
no examined edge ends at `b`; and when every examined edge starts at `a`
and some examined edge ends at `b`, it returns an edge from `a` to
`b`. -/
theorem c7_find_edge (t : Triangulation) (a b : VertexIndex) :
    (findEdgeByVertex t a b =
      (visitedList t (t.nextCcw (circulatorInit t a)) (findFuel t)
        (t.nextCcw (circulatorInit t a))).find?
        (fun e => decide (t.vi (.edgeEnd e.face e.edge) = b))) ∧
    (findEdgeByVertex t a b = none ↔
      ∀ e ∈ visitedList t (t.nextCcw (circulatorInit t a)) (findFuel t)
        (t.nextCcw (circulatorInit t a)), t.vi (.edgeEnd e.face e.edge) ≠ b) ∧
    ((∀ e ∈ visitedList t (t.nextCcw (circulatorInit t a)) (findFuel t)
        (t.nextCcw (circulatorInit t a)), t.vi (.edgeStart e.face e.edge) = a) →
      (∃ e ∈ visitedList t (t.nextCcw (circulatorInit t a)) (findFuel t)
        (t.nextCcw (circulatorInit t a)), t.vi (.edgeEnd e.face e.edge) = b) →
      ∃ e2, findEdgeByVertex t a b = some e2 ∧
        t.vi (.edgeStart e2.face e2.edge) = a ∧
        t.vi (.edgeEnd e2.face e2.edge) = b) := by
  have hmain : findEdgeByVertex t a b =
      (visitedList t (t.nextCcw (circulatorInit t a)) (findFuel t)
        (t.nextCcw (circulatorInit t a))).find?
        (fun e => decide (t.vi (.edgeEnd e.face e.edge) = b)) := by
    unfold findEdgeByVertex
    dsimp only
    exact findLoopAux_eq_find t b _ (findFuel t) _
  refine ⟨hmain, ?_, ?_⟩
  · rw [hmain, List.find?_eq_none]
    constructor
    · intro h e he
      have := h e he
      simpa using this
    · intro h e he
      simpa using h e he
  · intro hstart ⟨e, he, hb⟩
    have hsome : ((visitedList t (t.nextCcw (circulatorInit t a)) (findFuel t)
        (t.nextCcw (circulatorInit t a))).find?
        (fun e => decide (t.vi (.edgeEnd e.face e.edge) = b))).isSome := by
      rw [List.find?_isSome]
      exact ⟨e, he, by simpa using hb⟩
    obtain ⟨e2, he2⟩ := Option.isSome_iff_exists.mp hsome
    refine ⟨e2, by rw [hmain]; exact he2, ?_, ?_⟩
    · exact hstart e2 (List.mem_of_find?_eq_some he2)
    · have := List.find?_some he2
      simpa using this

/-- Witness for C7: in the intermediate-`End` mesh the circulation
around vertex 0 finds the edge to vertex 1 with the right endpoints. -/
theorem c7_witness :
    findEdgeByVertex ceMidEnd 0 1 = some ⟨7, 0⟩ ∧
    ceMidEnd.vi (.edgeStart 7 0) = 0 ∧ ceMidEnd.vi (.edgeEnd 7 0) = 1 := by
  obtain ⟨e2, hfind, hstart, hend⟩ := (c7_find_edge ceMidEnd 0 1).2.2
    (by decide) ⟨⟨7, 0⟩, by decide, by decide⟩
  have he : e2 = (⟨7, 0⟩ : FaceEdge) := by
    have h2 : some e2 = some (⟨7, 0⟩ : FaceEdge) := by rw [← hfind]; decide
    injection h2
  subst he
  exact ⟨hfind, hstart, hend⟩

/-- C4: an edge-search step crosses into the neighbor face; letting
`far` be that face's vertex opposite the shared edge, it emits `End` at
`far`'s corner when `far` is `v1` or when `far` is collinear with the
line through `v0` and `v1`; `NegativeEdge` on the edge one rotation
after `far`'s corner when `far` is counterclockwise of the line; and
`PositiveEdge` on the edge one rotation before it when clockwise. -/
theorem c4_search_edge (t : Triangulation) (v0 v1 : VertexIndex)
    (f : FaceIndex) (e vidx : Rot3)
    (hn : getNeighborIndex (t.face ((t.face f).neighbor e)) f = some vidx) :
    ((t.face ((t.face f).neighbor e)).vertex vidx = v1 →
      searchEdge t v0 v1 f e = .ok (.end_ ((t.face f).neighbor e) vidx)) ∧
    ((t.face ((t.face f).neighbor e)).vertex vidx ≠ v1 →
      t.orientFn (t.pos v0) (t.pos v1)
        (t.pos ((t.face ((t.face f).neighbor e)).vertex vidx)) = .collinear →
      searchEdge t v0 v1 f e = .ok (.end_ ((t.face f).neighbor e) vidx)) ∧
    ((t.face ((t.face f).neighbor e)).vertex vidx ≠ v1 →
      t.orientFn (t.pos v0) (t.pos v1)
        (t.pos ((t.face ((t.face f).neighbor e)).vertex vidx)) = .ccw →
      searchEdge t v0 v1 f e =
        .ok (.negativeEdge ((t.face f).neighbor e) vidx.increment)) ∧
    ((t.face ((t.face f).neighbor e)).vertex vidx ≠ v1 →
      t.orientFn (t.pos v0) (t.pos v1)
        (t.pos ((t.face ((t.face f).neighbor e)).vertex vidx)) = .cw →
      searchEdge t v0 v1 f e =
        .ok (.positiveEdge ((t.face f).neighbor e) vidx.decrement)) := by
  refine ⟨?_, ?_, ?_, ?_⟩
  · intro hv
    rw [searchEdge_eq_of_some t v0 v1 f e vidx hn, if_pos hv]
  · intro hv ho
    rw [searchEdge_eq_of_some t v0 v1 f e vidx hn, if_neg hv, ho]
  · intro hv ho
    rw [searchEdge_eq_of_some t v0 v1 f e vidx hn, if_neg hv, ho]
  · intro hv ho
    rw [searchEdge_eq_of_some t v0 v1 f e vidx hn, if_neg hv, ho]

/-- Witness for C4 at the intermediate-`End` mesh: crossing the edge
named by the `Start` event reaches face 1 whose far vertex is the
collinear interior vertex, emitting `End`; and a cw far vertex emits
`PositiveEdge`. -/
theorem c4_witness :
    (getNeighborIndex (ceMidEnd.face ((ceMidEnd.face 0).neighbor 0)) 0 =
      some 2) ∧
    searchEdge ceMidEnd 0 4 0 0 = .ok (.end_ 1 2) ∧
    (getNeighborIndex (ceWheel.face ((ceWheel.face 2).neighbor 2)) 2 =
      some 1) ∧
    searchEdge ceWheel 0 1 2 2 = .ok (.positiveEdge 1 0) := by
  refine ⟨by decide, ?_, by decide, ?_⟩
  · have h := (c4_search_edge ceMidEnd 0 4 0 0 2 (by decide)).2.1
      (by decide) (by decide)
    simpa using h
  · have h := (c4_search_edge ceWheel 0 1 2 2 1 (by decide)).2.2.2
      (by decide) (by decide)
    simpa using h

/-- C3 counterexample: in the wheel mesh with positions inconsistent
with the stored rotation order, the endpoints are joined by a direct
edge, yet the crossing iterator emits a `Start` followed by an `End` and
never a `CoincidentEdge`. -/
theorem c3_counterexample :
    ceWheel.dimension = 2 ∧ (0 : VertexIndex) ≠ 1 ∧
    (0 : VertexIndex) ≠ ceWheel.infiniteVertex ∧
    (1 : VertexIndex) ≠ ceWheel.infiniteVertex ∧
    ceWheel.vi (.edgeStart 0 2) = 0 ∧ ceWheel.vi (.edgeEnd 0 2) = 1 ∧
    crossingSeq ceWheel 0 1 20 20 = ([.start 1 0, .end_ 4 0], .done) := by
  decide

/-- C3 (amended): when every edge examined by the clockwise circulation
around `v0` before the first edge ending at `v1` is skipped (infinite or
back to `v0`) or classified counterclockwise, the crossing iterator of
two directly connected vertices yields exactly one event, the
`CoincidentEdge` naming that connecting edge, and is then exhausted. -/
theorem c3_amended (t : Triangulation) (v0 v1 : VertexIndex) (sf n k : Nat)
    (ek : FaceEdge)
    (hdim : t.dimension = 2) (hne : v0 ≠ v1)
    (hf0 : v0 ≠ t.infiniteVertex) (hf1 : v1 ≠ t.infiniteVertex)
    (hek : Nat.iterate t.advanceCw k (circulatorInit t v0) = ek)
    (hsteps : ∀ i < k,
      t.vi (.edgeEnd (Nat.iterate t.advanceCw i (circulatorInit t v0)).face
        (Nat.iterate t.advanceCw i (circulatorInit t v0)).edge) ≠ v1 ∧
      (t.vi (.edgeEnd (Nat.iterate t.advanceCw i (circulatorInit t v0)).face
          (Nat.iterate t.advanceCw i (circulatorInit t v0)).edge) =
            t.infiniteVertex ∨
       t.vi (.edgeEnd (Nat.iterate t.advanceCw i (circulatorInit t v0)).face
          (Nat.iterate t.advanceCw i (circulatorInit t v0)).edge) = v0 ∨
       classify t v0 v1 v0
         (t.vi (.edgeEnd (Nat.iterate t.advanceCw i (circulatorInit t v0)).face
           (Nat.iterate t.advanceCw i (circulatorInit t v0)).edge)) =
         .orientC .ccw))
    (hk : t.vi (.edgeEnd ek.face ek.edge) = v1)
    (hsf : k + 1 ≤ sf) :
    crossingSeq t v0 v1 sf (n + 1) =
      ([.coincidentEdge ek.face ek.edge], .done) := by
  have hreach := searchVertexLoop_cw_reach t v0 v1 hf1 hne k
    (circulatorInit t v0) none sf (Or.inl rfl) hsteps (by rw [hek]; exact hk) hsf
  rw [hek] at hreach
  have hsv : searchVertex t v0 v1 v0 v0 sf =
      .ok (some (.coincidentEdge ek.face ek.edge)) := by
    unfold searchVertex
    dsimp only
    rw [if_neg hne]
    exact hreach
  unfold crossingSeq newCrossingIterator
  rw [if_neg (by simp [hdim]), if_neg hne, if_neg hf0, if_neg hf1, hsv]
  have hstep : stepCrossing t v0 v1 sf (.coincidentEdge ek.face ek.edge) =
      .ok none := by
    simp only [stepCrossing]
    rw [hk]
    unfold searchVertex
    dsimp only
    rw [if_pos rfl]
  simp only [runAux]
  rw [hstep]
  simp [runAux_none]

/-- Witness for C3 (amended): on the tetrahedron the initial edge of the
circulation around `v0` already ends at `v1`, and the run is the single
`CoincidentEdge` event. -/
theorem c3_witness :
    crossingSeq ceTetra 0 1 5 6 = ([.coincidentEdge 0 2], .done) :=
  c3_amended ceTetra 0 1 5 5 0 ⟨0, 2⟩
    (by decide) (by decide) (by decide) (by decide) (by decide)
    (fun i hi => absurd hi (Nat.not_lt_zero i)) (by decide) (by omega)

/-- C6 counterexample: two faces each listing the other as the neighbor
at all three rotations satisfy the twin invariant literally (every
neighbor lists the origin face among its neighbors), yet
`opposite_edge` is not an involution: applied twice to rotation 1 of
face 0 it lands on rotation 0. -/
theorem c6_counterexample :
    TwinListed ceDouble ∧
    ceDouble.oppositeEdge ⟨0, 1⟩ = some ⟨1, 0⟩ ∧
    ceDouble.oppositeEdge ⟨1, 0⟩ = some ⟨0, 0⟩ ∧
    ((ceDouble.oppositeEdge ⟨0, 1⟩).bind ceDouble.oppositeEdge) =
      some ⟨0, 0⟩ ∧
    (⟨0, 0⟩ : FaceEdge) ≠ ⟨0, 1⟩ := by
  refine ⟨by decide, by decide, by decide, by decide, by decide⟩

/-- C6 (amended): when the neighbor face lists the origin face among its
neighbors and the origin face lists each of its neighbors at exactly one
rotation, `opposite_edge` succeeds and applying it to its own result
returns the original face edge; and `opposite_edge` fails exactly when
the neighbor face does not list the origin face among its neighbors. -/
theorem c6_amended (t : Triangulation) (eo : FaceEdge)
    (hlist : ∃ s : Rot3,
      (t.face ((t.face eo.face).neighbor eo.edge)).neighbor s = eo.face)
    (hu : ∀ r s : Rot3,
      (t.face eo.face).neighbor r = (t.face eo.face).neighbor s → r = s) :
    (∃ j, t.oppositeEdge eo = some ⟨(t.face eo.face).neighbor eo.edge, j⟩ ∧
      t.oppositeEdge ⟨(t.face eo.face).neighbor eo.edge, j⟩ = some eo) ∧
    (∀ e2 : FaceEdge, t.oppositeEdge e2 = none ↔
      ∀ r : Rot3, (t.face ((t.face e2.face).neighbor e2.edge)).neighbor r ≠
        e2.face) := by
  constructor
  · obtain ⟨s, hs⟩ := hlist
    obtain ⟨j, hj⟩ := getNeighborIndex_isSome _ _ s hs
    have hback := getNeighborIndex_some _ _ _ hj
    refine ⟨j, ?_, ?_⟩
    · unfold Triangulation.oppositeEdge
      dsimp only
      rw [hj]
      rfl
    · unfold Triangulation.oppositeEdge
      dsimp only
      rw [hback]
      obtain ⟨j2, hj2⟩ := getNeighborIndex_isSome (t.face eo.face)
        ((t.face eo.face).neighbor eo.edge) eo.edge rfl
      have hj2n := getNeighborIndex_some _ _ _ hj2
      have hjeq : j2 = eo.edge := hu j2 eo.edge hj2n
      subst hjeq
      rw [hj2]
      rfl
  · intro e2
    unfold Triangulation.oppositeEdge
    dsimp only
    rw [Option.map_eq_none']
    exact getNeighborIndex_none_iff _ _

/-- Witness for C6 (amended): on the tetrahedron the twin of rotation 0
of face 0 is rotation 1 of face 3, and taking the twin again returns to
the original edge. -/
theorem c6_witness :
    ceTetra.oppositeEdge ⟨0, 0⟩ = some ⟨3, 1⟩ ∧
    ceTetra.oppositeEdge ⟨3, 1⟩ = some ⟨0, 0⟩ := by
  obtain ⟨⟨j, h1, h2⟩, -⟩ := c6_amended ceTetra ⟨0, 0⟩ (by decide) (by decide)
  have hj : j = 1 := by
    have h3 : some (⟨(ceTetra.face 0).neighbor 0, j⟩ : FaceEdge) =
        some (⟨3, 1⟩ : FaceEdge) := by rw [← h1]; decide
    injection h3 with h4
    have h5 := congrArg FaceEdge.edge h4
    simpa using h5
  subst hj
  have hn : (ceTetra.face 0).neighbor 0 = 3 := by decide
  rw [hn] at h1 h2
  exact ⟨h1, h2⟩

/-- C8: during a vertex-search step, a far vertex reported collinear is
fatal (structural corruption) exactly when the collinear classifier
reports `First`, `Second` (the far vertex being a distinct index from
`v1` at that point) or `After`; a `Between` result yields a
`CoincidentEdge`, and a `Before` result is tolerated as an edge pointing
away (classified counterclockwise and circulation goes on).  Moreover,
with the exact predicates, on a triangulation with injective finite
positions and no vertex strictly inside a finite edge, none of the
fatal branches is reachable from a base vertex lying on the closed
segment from `v0` towards `v1`. -/
theorem c8_collinear_classification :
    (∀ (t : Triangulation) (v0 v1 sv w : VertexIndex),
      w ≠ sv →
      t.orientFn (t.pos v0) (t.pos v1) (t.pos w) = .collinear →
      ((classify t v0 v1 sv w = .corruptC ↔
        (t.collinearFn (t.pos v0) (t.pos v1) (t.pos w) = .first ∨
         t.collinearFn (t.pos v0) (t.pos v1) (t.pos w) = .second ∨
         t.collinearFn (t.pos v0) (t.pos v1) (t.pos w) = .after)) ∧
       (classify t v0 v1 sv w = .emitC ↔
        t.collinearFn (t.pos v0) (t.pos v1) (t.pos w) = .between) ∧
       (classify t v0 v1 sv w = .orientC .ccw ↔
        t.collinearFn (t.pos v0) (t.pos v1) (t.pos w) = .before))) ∧
    (∀ (t : Triangulation) (v0 v1 sv w base : VertexIndex) (cur : FaceEdge),
      t.orientFn = exactOrient →
      t.collinearFn = exactCollinearTest →
      PosInjective t →
      NoVertexInsideEdge t →
      w < t.vertexCount → v0 < t.vertexCount → v1 < t.vertexCount →
      w ≠ t.infiniteVertex → v0 ≠ t.infiniteVertex → v1 ≠ t.infiniteVertex →
      base ≠ t.infiniteVertex →
      v0 ≠ v1 → w ≠ v0 → w ≠ v1 → base ≠ v1 →
      cur.face < t.faceList.length →
      t.vi (.edgeStart cur.face cur.edge) = base →
      t.vi (.edgeEnd cur.face cur.edge) = w →
      exactOrient (t.pos v0) (t.pos v1) (t.pos base) = .collinear →
      (exactCollinearTest (t.pos v0) (t.pos v1) (t.pos base) = .first ∨
       exactCollinearTest (t.pos v0) (t.pos v1) (t.pos base) = .between) →
      classify t v0 v1 sv w ≠ .corruptC) := by
  constructor
  · intro t v0 v1 sv w hsv hcol
    rw [classify_of_collinear t v0 v1 sv w hsv hcol]
    cases hct : t.collinearFn (t.pos v0) (t.pos v1) (t.pos w) <;> simp
  · intro t v0 v1 sv w base cur hOr hCt hinj hnoin hfw hfv0 hfv1 hiw hi0 hi1
      hib h01 hw0 hw1 hb1 hcurf hstart hend hbcol hbpos
    have hp0p1 : t.pos v0 ≠ t.pos v1 := by
      intro he
      exact h01 (hinj v0 (List.mem_range.mpr hfv0) v1 (List.mem_range.mpr hfv1)
        hi0 hi1 he)
    by_cases hsv : w = sv
    · rw [classify_of_startV t v0 v1 sv w hsv]; simp
    · cases hov : t.orientFn (t.pos v0) (t.pos v1) (t.pos w) with
      | ccw => rw [classify_of_ccw t v0 v1 sv w hsv hov]; simp
      | cw => rw [classify_of_cw t v0 v1 sv w hsv hov]; simp
      | collinear =>
        rw [classify_of_collinear t v0 v1 sv w hsv hov]
        have hcw : cross2 (psub (t.pos v1) (t.pos v0))
            (psub (t.pos w) (t.pos v0)) = 0 := by
          rw [hOr] at hov
          exact (exactOrient_collinear_iff _ _ _).mp hov
        rw [hCt]
        cases hct : exactCollinearTest (t.pos v0) (t.pos v1) (t.pos w) with
        | before => simp
        | between => simp
        | first =>
          exfalso
          have ht := (exactCollinearTest_first_iff _ _ _).mp hct
          have heq := collinear_dot_zero_eq (t.pos v0) (t.pos v1) (t.pos w)
            hp0p1 hcw ht
          exact hw0 (hinj w (List.mem_range.mpr hfw) v0
            (List.mem_range.mpr hfv0) hiw hi0 heq)
        | second =>
          exfalso
          have ht := (exactCollinearTest_second_iff _ _ _).mp hct
          have heq := collinear_dot_len_eq (t.pos v0) (t.pos v1) (t.pos w)
            hp0p1 hcw ht.2
          exact hw1 (hinj w (List.mem_range.mpr hfw) v1
            (List.mem_range.mpr hfv1) hiw hi1 heq)
        | after =>
          exfalso
          have ht := (exactCollinearTest_after_iff _ _ _).mp hct
          have hcb : cross2 (psub (t.pos v1) (t.pos v0))
              (psub (t.pos base) (t.pos v0)) = 0 :=
            (exactOrient_collinear_iff _ _ _).mp hbcol
          have hL := dot2_self_pos (t.pos v0) (t.pos v1) hp0p1
          have htb : 0 ≤ dot2 (psub (t.pos base) (t.pos v0))
              (psub (t.pos v1) (t.pos v0)) ∧
              dot2 (psub (t.pos base) (t.pos v0)) (psub (t.pos v1) (t.pos v0)) <
              dot2 (psub (t.pos v1) (t.pos v0)) (psub (t.pos v1) (t.pos v0)) := by
            rcases hbpos with hb | hb
            · have h2 := (exactCollinearTest_first_iff _ _ _).mp hb
              exact ⟨by omega, by omega⟩
            · have h2 := (exactCollinearTest_between_iff _ _ _).mp hb
              exact ⟨le_of_lt h2.1, h2.2⟩
          have hstrict := strictBetween_of_params (t.pos v0) (t.pos v1)
            (t.pos base) (t.pos w) hp0p1 hcb hcw htb.1 htb.2 ht.2
          have hnb := hnoin cur.face (List.mem_range.mpr hcurf) cur.edge v1
            (List.mem_range.mpr hfv1) hi1
            (by rw [hstart]; exact hib) (by rw [hend]; exact hiw)
            (by rw [hstart]; intro he; exact hb1 he.symm)
            (by rw [hend]; intro he; exact hw1 he.symm)
          rw [hstart, hend] at hnb
          exact hnb hstrict

/-- Witness for C8: in the collinear-passthrough mesh the far vertex on
the segment is classified `Between` and yields a `CoincidentEdge`, and
none of the fatal branches fires. -/
theorem c8_witness :
    (classify ceCollinear 0 2 0 1 = .emitC ↔
      ceCollinear.collinearFn (ceCollinear.pos 0) (ceCollinear.pos 2)
        (ceCollinear.pos 1) = .between) ∧
    classify ceCollinear 0 2 0 1 ≠ .corruptC :=
  ⟨(c8_collinear_classification.1 ceCollinear 0 2 0 1 (by decide)
      (by decide)).2.1,
   c8_collinear_classification.2 ceCollinear 0 2 0 1 0 ⟨0, 2⟩
     rfl rfl (by decide) (by decide) (by decide) (by decide) (by decide)
     (by decide) (by decide) (by decide) (by decide) (by decide) (by decide)
     (by decide) (by decide) (by decide) (by decide) (by decide) (by decide)
     (by decide)⟩

end ShineTri

